import Mathlib

/-!
# SimpleKernel virtual memory manager (src/arch/x86_64/mm/vmm.c)

A shallow embedding of `vmm_init`, `map`, `unmap`, `get_mapping` and
`page_fault`, followed by the properties proved about them.

Modelling conventions.

* Machine words are natural numbers; `ptr_t`, `pgd_t`, `pte_t` and `uint32_t`
  are 32 bits wide and every stored or wrapped value is reduced with `u32`.
* Two renderings of the directory are used.  In `VmState` the directory a
  `pgd_t *pgd_now` argument points to is the component `pgd` (`pgd_now[i]` is
  `s.pgd i`) and the second-level tables, reached through integers converted
  to pointers, live in `mem`, the kernel-linear memory, which holds one
  `pte_t` per 4-byte aligned address; this rendering serves `vmm_init`, whose
  two static arrays are distinct objects, and the statements about a single
  lookup.  In `Machine` the directory lies in memory like the tables and
  `pgd_now` is an address, so that a store or a `bzero` through a table
  pointer can reach a directory entry; the statements about what `map` and
  `unmap` leave unchanged are made there.
* `pmm_alloc` belongs to the physical memory manager, which is not part of
  this file: the frame a call would return is an argument of `map`, and the
  state records the `count` argument of every call made.
* `invlpg` only touches the translation cache of the processor, which is not
  part of the state.
-/

namespace SimpleKernel

/-! ## Constants of `mem/vmm.h` -/

/-- Modelled from the spec: the header `mem/vmm.h` is not among the sources.
Width of `ptr_t`, `pgd_t`, `pte_t` (32-bit two-level paging). -/
def WORD : Nat := 4294967296

/-- Truncation of a value to a 32-bit machine word. -/
def u32 (x : Nat) : Nat := x % WORD

/-- Modelled from the spec: `PAGE_OFFSET` of `mem/vmm.h`, the Kernel Offset;
`vmm.c` line 27 names the value `0xC0000000`. -/
def PAGE_OFFSET : Nat := 0xC0000000

/-- Modelled from the spec: `PAGE_SIZE` of `mem/vmm.h`; `vmm.c` line 42 shifts
a page number by 12 bits. -/
def PAGE_SIZE : Nat := 0x1000

/-- Modelled from the spec: `PAGE_MASK` of `mem/vmm.h`, the page-aligned bits
of a 32-bit word. -/
def PAGE_MASK : Nat := 0xFFFFF000

/-- Modelled from the spec: `PAGE_PRESENT` of `mem/vmm.h`, the present flag. -/
def PAGE_PRESENT : Nat := 0x1

/-- Modelled from the spec: `PAGE_WRITE` of `mem/vmm.h`, the writable flag. -/
def PAGE_WRITE : Nat := 0x2

/-- Modelled from the spec: `PGD_SIZE` of `mem/vmm.h`, the number of directory
entries (`PAGE_SIZE / sizeof(pte_t)`). -/
def PGD_SIZE : Nat := 1024

/-- Modelled from the spec: `PTE_SIZE` of `mem/vmm.h`, the number of leaf
entries of one table (`PAGE_SIZE / sizeof(uint32_t)`). -/
def PTE_SIZE : Nat := 1024

/-- Modelled from the spec: `PTE_COUNT` of `mem/vmm.h`, the number of tables
reserved for the kernel window; `vmm.c` line 40 gives the covered range,
`PTE_COUNT * PTE_SIZE` pages, as 512MB. -/
def PTE_COUNT : Nat := 128

/-- Modelled from the spec: `sizeof(pte_t)`, the byte size of one entry. -/
def PTE_BYTES : Nat := 4

/-- Modelled from the spec: the macro `PGD_INDEX` of `mem/vmm.h`, the
top-level index of a virtual address; `vmm.c` line 27 gives
`PGD_INDEX(0xC0000000) = 0x0300`. -/
def PGD_INDEX (x : Nat) : Nat := (x >>> 22) &&& 0x3FF

/-- Modelled from the spec: the macro `PTE_INDEX` of `mem/vmm.h`, the
second-level index of a virtual address. -/
def PTE_INDEX (x : Nat) : Nat := (x >>> 12) &&& 0x3FF

/-- Modelled from the spec: `INT_PAGE_FAULT`, the page-fault vector;
`vmm.c` line 47 gives 14. -/
def INT_PAGE_FAULT : Nat := 14

/-! ## State -/

/-- The state the functions of `vmm.c` read and write. -/
structure VmState where
  /-- The directory array `pgd_now` points to. -/
  pgd : Nat → Nat
  /-- Kernel-linear memory: the `pte_t` stored at an address. -/
  mem : Nat → Nat
  /-- The `count` argument of every `pmm_alloc` call, latest first. -/
  pmm_calls : List Nat
  /-- The argument of the last `switch_pgd`, if any. -/
  cr3 : Option Nat
  /-- The vectors `page_fault` was registered for, latest first. -/
  pf_vectors : List Nat

/-- The expression `pgd_now[i] = v`. -/
def VmState.setPgd (s : VmState) (i v : Nat) : VmState :=
  { s with pgd := fun k => if k = i then u32 v else s.pgd k }

/-- The expression `*(pte_t *)a = v` on kernel-linear memory. -/
def VmState.store (s : VmState) (a v : Nat) : VmState :=
  { s with mem := fun k => if k = a then u32 v else s.mem k }

/-- The call `bzero((void *)a, n)`: every entry that starts in
`[a, a + n)` becomes zero. -/
def bzero (s : VmState) (a n : Nat) : VmState :=
  { s with mem := fun k => if a ≤ k ∧ k < a + n then 0 else s.mem k }

/-- The address of `pte[idx]` for a table pointer `pte`. -/
def entryAddr (pte idx : Nat) : Nat := pte + PTE_BYTES * idx

/-- The conversion `(pte_t *)((ptr_t)pte + PAGE_OFFSET)` of a physical table
address to its kernel-linear address. -/
def toLinear (pte : Nat) : Nat := u32 (pte + PAGE_OFFSET)

/-! ## The mapping engine -/

/-- The function `map` (lines 57-79).  `frame` is the value `pmm_alloc(1)`
returns when it is called. -/
def map (frame : Nat) (s : VmState) (va pa flags : Nat) : VmState :=
  let pgd_idx := PGD_INDEX va
  let pte_idx := PTE_INDEX va
  let pte := s.pgd pgd_idx &&& PAGE_MASK
  if pte = 0 then
    let pte := u32 frame
    let s := { s with pmm_calls := 1 :: s.pmm_calls }
    let s := s.setPgd pgd_idx (pte ||| PAGE_PRESENT ||| PAGE_WRITE)
    let pte := toLinear pte
    let s := bzero s pte PAGE_SIZE
    s.store (entryAddr pte pte_idx) ((pa &&& PAGE_MASK) ||| flags)
  else
    let pte := toLinear pte
    s.store (entryAddr pte pte_idx) ((pa &&& PAGE_MASK) ||| flags)

/-- The function `unmap` (lines 81-99). -/
def unmap (s : VmState) (va : Nat) : VmState :=
  let pgd_idx := PGD_INDEX va
  let pte_idx := PTE_INDEX va
  let pte := s.pgd pgd_idx &&& PAGE_MASK
  if pte = 0 then
    s
  else
    let pte := toLinear pte
    s.store (entryAddr pte pte_idx) 0

/-- What one run of `get_mapping` leaves behind.  The state is not written.
The parameter `pa` is declared `ptr_t pa` and passed by value, so a caller
receives `ret` only; `pa` is the value of the parameter variable when the
function returns. -/
structure GetMapping where
  /-- The returned word: 1 for "mapped", 0 for "not mapped". -/
  ret : Nat
  /-- The final value of the local parameter variable `pa`. -/
  pa : Nat
deriving DecidableEq, Repr

/-- The function `get_mapping` (lines 101-120). -/
def get_mapping (s : VmState) (va pa : Nat) : GetMapping :=
  let pgd_idx := PGD_INDEX va
  let pte_idx := PTE_INDEX va
  let pte := s.pgd pgd_idx &&& PAGE_MASK
  if pte = 0 then
    { ret := 0, pa := pa }
  else
    let pte := toLinear pte
    if s.mem (entryAddr pte pte_idx) ≠ 0 ∧ pa ≠ 0 then
      { ret := 1, pa := s.mem (entryAddr pte pte_idx) &&& PAGE_MASK }
    else
      { ret := 0, pa := pa }

/-! ## The bootstrap initializer -/

/-- The address `(ptr_t)pte_kernel[j]` of row `j` of the static array
`pte_kernel[PTE_COUNT][PTE_SIZE]` linked at `pte_kernel`. -/
def rowAddr (pte_kernel j : Nat) : Nat := pte_kernel + j * (PTE_SIZE * PTE_BYTES)

/-- The value `((ptr_t)pte_kernel[j] - PAGE_OFFSET) | PAGE_PRESENT | PAGE_WRITE`
of line 34; the subtraction wraps at 32 bits. -/
def dirEntry (pte_kernel j : Nat) : Nat :=
  u32 (rowAddr pte_kernel j + WORD - PAGE_OFFSET) ||| PAGE_PRESENT ||| PAGE_WRITE

/-- The value `(i << 12) | PAGE_PRESENT | PAGE_WRITE` of line 42. -/
def leafEntry (i : Nat) : Nat := u32 (i <<< 12) ||| PAGE_PRESENT ||| PAGE_WRITE

/-- The loop of lines 32-35, from the loop variables `i`, `j` on. -/
def vmm_init_pgd_loop (pte_kernel first : Nat) (i j : Nat) (s : VmState) : VmState :=
  if i < PTE_COUNT + first then
    vmm_init_pgd_loop pte_kernel first (i + 1) (j + 1) (s.setPgd i (dirEntry pte_kernel j))
  else
    s
termination_by PTE_COUNT + first - i

/-- The loop of lines 41-43, from the loop variable `i` on; `pte` is the
flattened view `(uint32_t *)pte_kernel`. -/
def vmm_init_pte_loop (pte : Nat) (i : Nat) (s : VmState) : VmState :=
  if i < PTE_COUNT * PTE_SIZE then
    vmm_init_pte_loop pte (i + 1) (s.store (entryAddr pte i) (leafEntry i))
  else
    s
termination_by PTE_COUNT * PTE_SIZE - i

/-- The call `register_interrupt_handler(v, &page_fault)`. -/
def VmState.register_interrupt_handler (s : VmState) (v : Nat) : VmState :=
  { s with pf_vectors := v :: s.pf_vectors }

/-- The call `switch_pgd(pd)`, which loads `pd` into `cr3`. -/
def VmState.switch_pgd (s : VmState) (pd : Nat) : VmState :=
  { s with cr3 := some pd }

/-- The function `vmm_init` (lines 23-55), given the link addresses of the
static arrays `pgd_kernel` and `pte_kernel`; `s.pgd` is `pgd_kernel`.  The
line printed by `printk_info` is console output and not part of the state. -/
def vmm_init (pgd_kernel pte_kernel : Nat) (s : VmState) : VmState :=
  let kernel_pte_first_idx := PGD_INDEX PAGE_OFFSET
  let s := vmm_init_pgd_loop pte_kernel kernel_pte_first_idx kernel_pte_first_idx 0 s
  let pte := pte_kernel
  let s := vmm_init_pte_loop pte 1 s
  let pgd_kernel_phy_addr := u32 (pgd_kernel + WORD - PAGE_OFFSET)
  let s := s.register_interrupt_handler INT_PAGE_FAULT
  s.switch_pgd pgd_kernel_phy_addr

/-- The static tables are zero-initialised: every entry of `pgd_kernel` and
every entry of `pte_kernel` is 0. -/
def zeroInit (pte_kernel : Nat) (s : VmState) : Prop :=
  (∀ i, i < PGD_SIZE → s.pgd i = 0) ∧
    ∀ i, i < PTE_COUNT * PTE_SIZE → s.mem (entryAddr pte_kernel i) = 0

/-- A state with an empty directory, zeroed memory and no call recorded. -/
def fresh : VmState :=
  { pgd := fun _ => 0, mem := fun _ => 0, pmm_calls := [], cr3 := none, pf_vectors := [] }

/-- The contract of `pmm_alloc` for the frame handed to `map`: a non-null,
page-aligned 32-bit physical address. -/
def goodFrame (frame : Nat) : Prop :=
  frame % PAGE_SIZE = 0 ∧ 0 < frame ∧ frame < WORD

/-- The physical address of the table `map` writes the leaf entry of `va`
into: the one the directory entry holds, or `frame` when that entry is
empty. -/
def tableOf (frame : Nat) (s : VmState) (va : Nat) : Nat :=
  if s.pgd (PGD_INDEX va) &&& PAGE_MASK = 0 then u32 frame
  else s.pgd (PGD_INDEX va) &&& PAGE_MASK

/-- The address of the leaf entry of `va` in the table at physical
address `t`. -/
def leafAddr (t va : Nat) : Nat := entryAddr (toLinear t) (PTE_INDEX va)

/-! ## The page fault handler -/

/-- The lines `page_fault` prints. -/
inductive FaultMsg where
  /-- Line 133: faulting instruction pointer and faulting address. -/
  | fault_at (eip cr2 : Nat)
  /-- Line 134: the raw error code. -/
  | error_code (err_code : Nat)
  /-- Line 138: "Because the page wasn't present." -/
  | not_present
  /-- Line 141: "Write error." -/
  | write_error
  /-- Line 143: "Read error." -/
  | read_error
  /-- Line 146: "In user mode." -/
  | user_mode
  /-- Line 148: "In kernel mode." -/
  | kernel_mode
  /-- Line 151: "Reserved bits being overwritten." -/
  | reserved_bits
  /-- Line 154: "The fault occurred during an instruction fetch." -/
  | instr_fetch
deriving DecidableEq, Repr

/-- The function `page_fault` (lines 126-156): the lines printed, in order,
before the handler halts in `while (1);`.  `eip` and `err_code` are the
fields of `regs`, `cr2` is the fault-address register. -/
def page_fault (eip err_code cr2 : Nat) : List FaultMsg :=
  [FaultMsg.fault_at eip cr2, FaultMsg.error_code err_code]
  ++ (if err_code &&& 0x1 = 0 then [FaultMsg.not_present] else [])
  ++ (if err_code &&& 0x2 ≠ 0 then [FaultMsg.write_error] else [FaultMsg.read_error])
  ++ (if err_code &&& 0x4 ≠ 0 then [FaultMsg.user_mode] else [FaultMsg.kernel_mode])
  ++ (if err_code &&& 0x8 ≠ 0 then [FaultMsg.reserved_bits] else [])
  ++ (if err_code &&& 0x10 ≠ 0 then [FaultMsg.instr_fetch] else [])

/-- The messages that state the present / protection fact of a fault. -/
def isPresenceFact : FaultMsg → Bool
  | FaultMsg.not_present => true
  | _ => false

/-! ## Invariants and traces -/

/-- No table sharing: a directory entry that holds a table holds a table no
other directory entry holds.  The table of entry `i` is
`pgd_now[i] & PAGE_MASK`, and the entry holds none when that is 0 (the test
`!pte` of lines 62, 87 and 106). -/
def noSharing (s : VmState) : Prop :=
  ∀ i j, i < PGD_SIZE → j < PGD_SIZE → i ≠ j → s.pgd i &&& PAGE_MASK ≠ 0 →
    s.pgd i &&& PAGE_MASK ≠ s.pgd j &&& PAGE_MASK

/-- The frame `pmm_alloc` hands out is a page-aligned 32-bit address that no
directory entry of the space holds as its table.  The page of the directory
itself is not excluded here: that is `frameApart`. -/
def unusedFrame (s : VmState) (frame : Nat) : Prop :=
  frame % PAGE_SIZE = 0 ∧ frame < WORD ∧
    ∀ j, j < PGD_SIZE → s.pgd j &&& PAGE_MASK ≠ 0 → s.pgd j &&& PAGE_MASK ≠ frame

/-- The address `va'` lies in another page than `va`: the top-level indices
or the second-level indices differ. -/
def otherPage (va va' : Nat) : Prop :=
  PGD_INDEX va' ≠ PGD_INDEX va ∨ PTE_INDEX va' ≠ PTE_INDEX va

/-- Virtual address 0 is not mapped: `get_mapping` on 0 returns 0 whatever
its `pa` argument. -/
def nullUnmapped (s : VmState) : Prop := ∀ q, (get_mapping s 0 q).ret = 0

/-- The runs of the body of the loop of lines 32-35, in order, from the loop
variables `i`, `j` on: each run is the pair `(i, j)` of the index written in
`pgd_kernel` and the row taken from `pte_kernel`. -/
def vmm_init_pgd_iters (first : Nat) (i j : Nat) : List (Nat × Nat) :=
  if i < PTE_COUNT + first then
    (i, j) :: vmm_init_pgd_iters first (i + 1) (j + 1)
  else
    []
termination_by PTE_COUNT + first - i

/-- The runs of the body of the loop of lines 41-43, in order, from the loop
variable `i` on: each run is the index `i` written in the flattened view
`pte` of `pte_kernel`. -/
def vmm_init_pte_iters (i : Nat) : List Nat :=
  if i < PTE_COUNT * PTE_SIZE then
    i :: vmm_init_pte_iters (i + 1)
  else
    []
termination_by PTE_COUNT * PTE_SIZE - i

/-! ## The directory in memory

In `vmm.c` the directory `pgd_now` points to lies in the same memory as the
tables.  `Machine` is that memory, and `InMemory.map`, `InMemory.unmap`,
`InMemory.get_mapping` are the three functions with `pgd_now` an address, so
that a store through a table pointer can reach a directory entry. -/

/-- Kernel-linear memory, directory included: the 32-bit word stored at an
address, and the `count` argument of every `pmm_alloc` call, latest first. -/
structure Machine where
  /-- The word stored at an address. -/
  mem : Nat → Nat
  /-- The `count` argument of every `pmm_alloc` call, latest first. -/
  pmm_calls : List Nat

/-- The expression `*(uint32_t *)a = v`. -/
def Machine.store (m : Machine) (a v : Nat) : Machine :=
  { m with mem := fun k => if k = a then u32 v else m.mem k }

/-- The call `bzero((void *)a, n)`: every word that starts in `[a, a + n)`
becomes zero. -/
def Machine.bzero (m : Machine) (a n : Nat) : Machine :=
  { m with mem := fun k => if a ≤ k ∧ k < a + n then 0 else m.mem k }

namespace InMemory

/-- The function `map` (lines 57-79) on memory; `pgd_now` is the address of
the directory and `frame` the value `pmm_alloc(1)` returns when called. -/
def map (frame : Nat) (m : Machine) (pgd_now va pa flags : Nat) : Machine :=
  let pgd_idx := PGD_INDEX va
  let pte_idx := PTE_INDEX va
  let pte := m.mem (entryAddr pgd_now pgd_idx) &&& PAGE_MASK
  if pte = 0 then
    let pte := u32 frame
    let m := { m with pmm_calls := 1 :: m.pmm_calls }
    let m := m.store (entryAddr pgd_now pgd_idx) (pte ||| PAGE_PRESENT ||| PAGE_WRITE)
    let pte := toLinear pte
    let m := m.bzero pte PAGE_SIZE
    m.store (entryAddr pte pte_idx) ((pa &&& PAGE_MASK) ||| flags)
  else
    let pte := toLinear pte
    m.store (entryAddr pte pte_idx) ((pa &&& PAGE_MASK) ||| flags)

/-- The function `unmap` (lines 81-99) on memory. -/
def unmap (m : Machine) (pgd_now va : Nat) : Machine :=
  let pgd_idx := PGD_INDEX va
  let pte_idx := PTE_INDEX va
  let pte := m.mem (entryAddr pgd_now pgd_idx) &&& PAGE_MASK
  if pte = 0 then
    m
  else
    let pte := toLinear pte
    m.store (entryAddr pte pte_idx) 0

/-- The function `get_mapping` (lines 101-120) on memory. -/
def get_mapping (m : Machine) (pgd_now va pa : Nat) : GetMapping :=
  let pgd_idx := PGD_INDEX va
  let pte_idx := PTE_INDEX va
  let pte := m.mem (entryAddr pgd_now pgd_idx) &&& PAGE_MASK
  if pte = 0 then
    { ret := 0, pa := pa }
  else
    let pte := toLinear pte
    if m.mem (entryAddr pte pte_idx) ≠ 0 ∧ pa ≠ 0 then
      { ret := 1, pa := m.mem (entryAddr pte pte_idx) &&& PAGE_MASK }
    else
      { ret := 0, pa := pa }

end InMemory

/-- The directory at `pgd_now` and the memory of a machine, read as a state
with a directory array: entry `i` is the word at `pgd_now + 4 * i`. -/
def dirView (m : Machine) (pgd_now : Nat) : VmState :=
  { pgd := fun i => m.mem (entryAddr pgd_now i), mem := m.mem,
    pmm_calls := m.pmm_calls, cr3 := none, pf_vectors := [] }

/-- The directory lies in a page of its own: `pgd_now` is page-aligned and no
directory entry that holds a table holds the page of the directory itself
(no recursive mapping). -/
def dirApart (m : Machine) (pgd_now : Nat) : Prop :=
  pgd_now % PAGE_SIZE = 0 ∧
    ∀ i, i < PGD_SIZE → m.mem (entryAddr pgd_now i) &&& PAGE_MASK ≠ 0 →
      toLinear (m.mem (entryAddr pgd_now i) &&& PAGE_MASK) ≠ pgd_now

/-- The frame `pmm_alloc` hands out is not the page of the directory. -/
def frameApart (frame pgd_now : Nat) : Prop := toLinear (u32 frame) ≠ pgd_now

/-- A machine with all memory zero. -/
def zeroMachine : Machine := { mem := fun _ => 0, pmm_calls := [] }

/-- A machine whose directory, at `0xC0200000` (physical `0x200000`), maps
itself: entry 1 holds the page of the directory.  Entry 2 holds the table at
physical `0x300000`, whose leaf entry 1 maps the frame `0x100000`. -/
def selfMapped : Machine :=
  { mem := fun a =>
      if a = 0xC0200004 then 0x200003
      else if a = 0xC0200008 then 0x300003
      else if a = 0xC0300004 then 0x100003
      else 0,
    pmm_calls := [] }

/-- A machine without self-mapping: its directory, at `0xC0200000`, maps
`0x00801000` to the frame `0x100000` through a table in the frame `0x300000`,
installed by `map` on the zero machine. -/
def oneTable : Machine :=
  InMemory.map 0x300000 zeroMachine 0xC0200000 0x801000 0x100000 3

/-! ## Arithmetic of the masks and indices -/

theorem and_PAGE_MASK (x : Nat) : x &&& PAGE_MASK = x % 4294967296 / 4096 * 4096 := by
  have h : PAGE_MASK = (2 ^ 20 - 1) <<< 12 := by decide
  apply Nat.eq_of_testBit_eq
  intro i
  rw [h, Nat.testBit_and, Nat.testBit_shiftLeft, Nat.testBit_two_pow_sub_one]
  rw [show (4294967296 : Nat) = 2 ^ 32 by norm_num, show (4096 : Nat) = 2 ^ 12 by norm_num,
    ← Nat.shiftRight_eq_div_pow, ← Nat.shiftLeft_eq,
    Nat.testBit_shiftLeft, Nat.testBit_shiftRight, Nat.testBit_mod_two_pow]
  by_cases h1 : 12 ≤ i
  · have e : 12 + (i - 12) = i := by omega
    by_cases h2 : i < 32
    · have h3 : i - 12 < 20 := by omega
      simp [h1, h2, h3, e]
    · have h3 : ¬ (i - 12 < 20) := by omega
      simp [h1, h2, h3, e]
  · simp [h1]

theorem PGD_INDEX_eq (x : Nat) : PGD_INDEX x = x / 4194304 % 1024 := by
  unfold PGD_INDEX
  rw [Nat.shiftRight_eq_div_pow]
  exact Nat.and_pow_two_sub_one_eq_mod _ 10

theorem PTE_INDEX_eq (x : Nat) : PTE_INDEX x = x / 4096 % 1024 := by
  unfold PTE_INDEX
  rw [Nat.shiftRight_eq_div_pow]
  exact Nat.and_pow_two_sub_one_eq_mod _ 10

theorem or_low_bits (x f : Nat) (hx : x % 4096 = 0) (hf : f < 4096) : x ||| f = x + f := by
  have h : x = 2 ^ 12 * (x / 4096) := by omega
  rw [h]
  exact (Nat.mul_add_lt_is_or (by omega) _).symm

theorem or_present_write (x : Nat) (hx : x % 4096 = 0) :
    x ||| PAGE_PRESENT ||| PAGE_WRITE = x + 3 := by
  rw [Nat.lor_assoc, show PAGE_PRESENT ||| PAGE_WRITE = 3 by decide]
  exact or_low_bits x 3 hx (by omega)

theorem u32_eq (x : Nat) : u32 x = x % 4294967296 := rfl

theorem goodFrame_iff (frame : Nat) :
    goodFrame frame ↔ frame % 4096 = 0 ∧ 0 < frame ∧ frame < 4294967296 := Iff.rfl

theorem goodFrame_entry (frame : Nat) (h : goodFrame frame) :
    u32 (u32 frame ||| PAGE_PRESENT ||| PAGE_WRITE) &&& PAGE_MASK = frame := by
  rw [goodFrame_iff] at h
  have h1 : u32 frame = frame := by rw [u32_eq]; omega
  rw [h1, or_present_write frame h.1, and_PAGE_MASK, u32_eq]
  omega

/-! ## The state after `map`, `unmap` -/

theorem store_mem (s : VmState) (a v k : Nat) :
    (s.store a v).mem k = if k = a then u32 v else s.mem k := rfl

theorem store_pgd (s : VmState) (a v : Nat) : (s.store a v).pgd = s.pgd := rfl

theorem store_pmm_calls (s : VmState) (a v : Nat) : (s.store a v).pmm_calls = s.pmm_calls := rfl

theorem bzero_mem (s : VmState) (a n k : Nat) :
    (bzero s a n).mem k = if a ≤ k ∧ k < a + n then 0 else s.mem k := rfl

theorem bzero_pgd (s : VmState) (a n : Nat) : (bzero s a n).pgd = s.pgd := rfl

theorem setPgd_pgd (s : VmState) (i v k : Nat) :
    (s.setPgd i v).pgd k = if k = i then u32 v else s.pgd k := rfl

theorem setPgd_mem (s : VmState) (i v : Nat) : (s.setPgd i v).mem = s.mem := rfl

theorem map_pgd_table (frame : Nat) (s : VmState) (va pa flags : Nat)
    (hf : s.pgd (PGD_INDEX va) &&& PAGE_MASK = 0 → goodFrame frame) :
    (map frame s va pa flags).pgd (PGD_INDEX va) &&& PAGE_MASK = tableOf frame s va := by
  unfold map tableOf
  by_cases h : s.pgd (PGD_INDEX va) &&& PAGE_MASK = 0
  · have hg := hf h
    have h1 : u32 frame = frame := by
      rw [goodFrame_iff] at hg; rw [u32_eq]; omega
    rw [if_pos h, if_pos h]
    show (if PGD_INDEX va = PGD_INDEX va then _ else _) &&& PAGE_MASK = _
    rw [if_pos rfl, goodFrame_entry frame hg, h1]
  · rw [if_neg h, if_neg h]
    rfl

theorem tableOf_ne_zero (frame : Nat) (s : VmState) (va : Nat)
    (hf : s.pgd (PGD_INDEX va) &&& PAGE_MASK = 0 → goodFrame frame) :
    tableOf frame s va ≠ 0 := by
  unfold tableOf
  by_cases h : s.pgd (PGD_INDEX va) &&& PAGE_MASK = 0
  · have hg := hf h
    rw [goodFrame_iff] at hg
    rw [if_pos h, u32_eq]
    omega
  · rw [if_neg h]
    exact h

theorem map_mem_leaf (frame : Nat) (s : VmState) (va pa flags : Nat) :
    (map frame s va pa flags).mem (leafAddr (tableOf frame s va) va)
      = u32 ((pa &&& PAGE_MASK) ||| flags) := by
  unfold map tableOf leafAddr
  by_cases h : s.pgd (PGD_INDEX va) &&& PAGE_MASK = 0
  · rw [if_pos h, if_pos h]
    show (if _ = _ then _ else _) = _
    rw [if_pos rfl]
  · rw [if_neg h, if_neg h]
    show (if _ = _ then _ else _) = _
    rw [if_pos rfl]

theorem get_mapping_of_table (s : VmState) (va q t : Nat)
    (ht : s.pgd (PGD_INDEX va) &&& PAGE_MASK = t) (h0 : t ≠ 0) :
    get_mapping s va q =
      if s.mem (leafAddr t va) ≠ 0 ∧ q ≠ 0 then
        { ret := 1, pa := s.mem (leafAddr t va) &&& PAGE_MASK }
      else { ret := 0, pa := q } := by
  subst ht
  unfold get_mapping leafAddr
  rw [if_neg h0]

theorem leaf_page_bits (pa flags : Nat) (hfl : flags < PAGE_SIZE) :
    u32 ((pa &&& PAGE_MASK) ||| flags) &&& PAGE_MASK = pa &&& PAGE_MASK := by
  have hfl2 : flags < 4096 := hfl
  have hm := and_PAGE_MASK pa
  have hx : (pa &&& PAGE_MASK) % 4096 = 0 := by omega
  rw [or_low_bits _ _ hx hfl2, and_PAGE_MASK, u32_eq]
  omega

theorem get_mapping_ret_iff (s : VmState) (va q : Nat) :
    (get_mapping s va q).ret = 1 ↔
      s.pgd (PGD_INDEX va) &&& PAGE_MASK ≠ 0 ∧
      s.mem (leafAddr (s.pgd (PGD_INDEX va) &&& PAGE_MASK) va) ≠ 0 ∧ q ≠ 0 := by
  by_cases h : s.pgd (PGD_INDEX va) &&& PAGE_MASK = 0
  · have e : get_mapping s va q = { ret := 0, pa := q } := by
      unfold get_mapping
      rw [if_pos h]
    rw [e]
    constructor
    · intro h1
      exact (Nat.zero_ne_one h1).elim
    · intro h1
      exact absurd h h1.1
  · rw [get_mapping_of_table s va q _ rfl h]
    by_cases c : s.mem (leafAddr (s.pgd (PGD_INDEX va) &&& PAGE_MASK) va) ≠ 0 ∧ q ≠ 0
    · rw [if_pos c]
      exact ⟨fun _ => ⟨h, c⟩, fun _ => rfl⟩
    · rw [if_neg c]
      constructor
      · intro h1
        exact (Nat.zero_ne_one h1).elim
      · intro h1
        exact absurd h1.2 c

theorem get_mapping_ret_cases (s : VmState) (va q : Nat) :
    (get_mapping s va q).ret = 1 ∨ (get_mapping s va q).ret = 0 := by
  unfold get_mapping
  by_cases h : s.pgd (PGD_INDEX va) &&& PAGE_MASK = 0
  · rw [if_pos h]
    exact Or.inr rfl
  · rw [if_neg h]
    by_cases c : s.mem (entryAddr (toLinear (s.pgd (PGD_INDEX va) &&& PAGE_MASK)) (PTE_INDEX va)) ≠ 0
        ∧ q ≠ 0
    · rw [if_pos c]
      exact Or.inl rfl
    · rw [if_neg c]
      exact Or.inr rfl

theorem get_mapping_pa (s : VmState) (va q : Nat) :
    ((get_mapping s va q).ret = 1 →
      (get_mapping s va q).pa
        = s.mem (leafAddr (s.pgd (PGD_INDEX va) &&& PAGE_MASK) va) &&& PAGE_MASK) ∧
    ((get_mapping s va q).ret = 0 → (get_mapping s va q).pa = q) := by
  unfold get_mapping leafAddr
  by_cases h : s.pgd (PGD_INDEX va) &&& PAGE_MASK = 0
  · rw [if_pos h]
    exact ⟨fun h1 => (Nat.zero_ne_one h1).elim, fun _ => rfl⟩
  · rw [if_neg h]
    by_cases c : s.mem (entryAddr (toLinear (s.pgd (PGD_INDEX va) &&& PAGE_MASK)) (PTE_INDEX va)) ≠ 0
        ∧ q ≠ 0
    · rw [if_pos c]
      exact ⟨fun _ => rfl, fun h1 => (Nat.one_ne_zero h1).elim⟩
    · rw [if_neg c]
      exact ⟨fun h1 => (Nat.zero_ne_one h1).elim, fun _ => rfl⟩

theorem get_mapping_after_map (frame : Nat) (s : VmState) (va pa flags q : Nat)
    (hf : s.pgd (PGD_INDEX va) &&& PAGE_MASK = 0 → goodFrame frame)
    (hleaf : u32 ((pa &&& PAGE_MASK) ||| flags) ≠ 0) (hq : q ≠ 0) :
    get_mapping (map frame s va pa flags) va q
      = { ret := 1, pa := u32 ((pa &&& PAGE_MASK) ||| flags) &&& PAGE_MASK } := by
  rw [get_mapping_of_table _ va q (tableOf frame s va) (map_pgd_table frame s va pa flags hf)
    (tableOf_ne_zero frame s va hf), map_mem_leaf, if_pos ⟨hleaf, hq⟩]

theorem unmap_of_empty (s : VmState) (va : Nat)
    (h : s.pgd (PGD_INDEX va) &&& PAGE_MASK = 0) : unmap s va = s := by
  unfold unmap
  rw [if_pos h]

theorem unmap_of_table (s : VmState) (va : Nat)
    (h : s.pgd (PGD_INDEX va) &&& PAGE_MASK ≠ 0) :
    unmap s va = s.store (leafAddr (s.pgd (PGD_INDEX va) &&& PAGE_MASK) va) 0 := by
  unfold unmap
  rw [if_neg h]
  rfl

/-! ## Claims about `map`, `unmap`, `get_mapping` -/

/-- C2: after `unmap(space, v)`, `get_mapping` on `v` returns 0, for every
address space, every `v` and every `pa` argument. -/
theorem unmap_get_mapping (s : VmState) (va q : Nat) :
    (get_mapping (unmap s va) va q).ret = 0 := by
  by_cases c : s.pgd (PGD_INDEX va) &&& PAGE_MASK = 0
  · rw [unmap_of_empty s va c]
    unfold get_mapping
    rw [if_pos c]
  · rw [unmap_of_table s va c,
      get_mapping_of_table (s.store (leafAddr (s.pgd (PGD_INDEX va) &&& PAGE_MASK) va) 0) va q
        (s.pgd (PGD_INDEX va) &&& PAGE_MASK) rfl c]
    have h : (s.store (leafAddr (s.pgd (PGD_INDEX va) &&& PAGE_MASK) va) 0).mem
        (leafAddr (s.pgd (PGD_INDEX va) &&& PAGE_MASK) va) = 0 := by
      show (if _ = _ then u32 0 else _) = 0
      rw [if_pos rfl]
      rfl
    rw [if_neg (fun hc => hc.1 h)]

theorem map_of_table (frame : Nat) (s : VmState) (va pa flags : Nat)
    (h : s.pgd (PGD_INDEX va) &&& PAGE_MASK ≠ 0) :
    map frame s va pa flags
      = s.store (leafAddr (s.pgd (PGD_INDEX va) &&& PAGE_MASK) va) ((pa &&& PAGE_MASK) ||| flags) := by
  unfold map
  rw [if_neg h]
  rfl

theorem map_of_empty (frame : Nat) (s : VmState) (va pa flags : Nat)
    (h : s.pgd (PGD_INDEX va) &&& PAGE_MASK = 0) :
    map frame s va pa flags
      = (bzero (VmState.setPgd { s with pmm_calls := 1 :: s.pmm_calls } (PGD_INDEX va)
            (u32 frame ||| PAGE_PRESENT ||| PAGE_WRITE)) (toLinear (u32 frame)) PAGE_SIZE).store
          (leafAddr (u32 frame) va) ((pa &&& PAGE_MASK) ||| flags) := by
  unfold map
  rw [if_pos h]
  rfl

theorem PTE_INDEX_lt (va : Nat) : PTE_INDEX va < PTE_SIZE := by
  rw [PTE_INDEX_eq]
  show _ < 1024
  omega

theorem entryAddr_inj (t i j : Nat) (h : entryAddr t i = entryAddr t j) : i = j := by
  unfold entryAddr PTE_BYTES at h
  omega

theorem map_of_empty_mem (frame : Nat) (s : VmState) (va pa flags : Nat)
    (h : s.pgd (PGD_INDEX va) &&& PAGE_MASK = 0) (k : Nat) (hk : k < PTE_SIZE)
    (hne : k ≠ PTE_INDEX va) :
    (map frame s va pa flags).mem (entryAddr (toLinear (u32 frame)) k) = 0 := by
  rw [map_of_empty frame s va pa flags h]
  have h1 : entryAddr (toLinear (u32 frame)) k ≠ leafAddr (u32 frame) va := by
    intro e
    exact hne (entryAddr_inj _ _ _ e)
  have h2 : toLinear (u32 frame) ≤ entryAddr (toLinear (u32 frame)) k
      ∧ entryAddr (toLinear (u32 frame)) k < toLinear (u32 frame) + PAGE_SIZE := by
    have hk2 : k < 1024 := hk
    unfold entryAddr PTE_BYTES PAGE_SIZE
    omega
  rw [store_mem, if_neg h1, bzero_mem, if_pos h2]

/-- C4, as amended: for every address space, address `v` and `pa` argument,
`get_mapping` returns 1 if and only if the directory entry of `v` holds a
table address (its bits under `PAGE_MASK` are not all zero), the leaf entry
of `v` is not zero and the `pa` argument is not null; in every other case it
returns 0.  When it returns 1 the address it computes is the leaf entry under
`PAGE_MASK`.  The returned word depends only on the space, on `v` and on
whether the `pa` argument is null. -/
theorem get_mapping_outcome (s : VmState) (va q : Nat) :
    ((get_mapping s va q).ret = 1 ↔
      s.pgd (PGD_INDEX va) &&& PAGE_MASK ≠ 0 ∧
      s.mem (leafAddr (s.pgd (PGD_INDEX va) &&& PAGE_MASK) va) ≠ 0 ∧ q ≠ 0) ∧
    ((get_mapping s va q).ret = 0 ↔
      ¬ (s.pgd (PGD_INDEX va) &&& PAGE_MASK ≠ 0 ∧
        s.mem (leafAddr (s.pgd (PGD_INDEX va) &&& PAGE_MASK) va) ≠ 0 ∧ q ≠ 0)) ∧
    ((get_mapping s va q).ret = 1 →
      (get_mapping s va q).pa
        = s.mem (leafAddr (s.pgd (PGD_INDEX va) &&& PAGE_MASK) va) &&& PAGE_MASK) ∧
    (∀ q', (q' = 0 ↔ q = 0) → (get_mapping s va q').ret = (get_mapping s va q).ret) := by
  have key : ∀ r, (get_mapping s va r).ret = 0 ↔
      ¬ (s.pgd (PGD_INDEX va) &&& PAGE_MASK ≠ 0 ∧
        s.mem (leafAddr (s.pgd (PGD_INDEX va) &&& PAGE_MASK) va) ≠ 0 ∧ r ≠ 0) := by
    intro r
    rw [← get_mapping_ret_iff s va r]
    rcases get_mapping_ret_cases s va r with h | h
    · rw [h]
      exact ⟨fun h1 => (Nat.one_ne_zero h1).elim, fun h1 => absurd rfl h1⟩
    · rw [h]
      exact ⟨fun _ => Nat.zero_ne_one, fun _ => rfl⟩
  refine ⟨get_mapping_ret_iff s va q, key q, (get_mapping_pa s va q).1, ?_⟩
  intro q' hq
  rcases get_mapping_ret_cases s va q with h | h
  · rw [h]
    rw [get_mapping_ret_iff] at h ⊢
    exact ⟨h.1, h.2.1, fun h0 => h.2.2 (hq.1 h0)⟩
  · rw [h]
    rw [key] at h ⊢
    exact fun h1 => h ⟨h1.1, h1.2.1, fun h0 => h1.2.2 (hq.2 h0)⟩

/-- C4 witness: the address `0x00401000` mapped to `0x00100000`; with the
non-null `pa` argument `0x5000`, `get_mapping` returns 1 and computes
`0x00100000`. -/
theorem get_mapping_outcome_witness :
    (get_mapping (map 0x1000 fresh 0x401000 0x100000 3) 0x401000 0x5000).ret = 1 ∧
    (get_mapping (map 0x1000 fresh 0x401000 0x100000 3) 0x401000 0x5000).pa
      = (map 0x1000 fresh 0x401000 0x100000 3).mem
          (leafAddr ((map 0x1000 fresh 0x401000 0x100000 3).pgd (PGD_INDEX 0x401000)
            &&& PAGE_MASK) 0x401000) &&& PAGE_MASK :=
  ⟨by decide,
    (get_mapping_outcome (map 0x1000 fresh 0x401000 0x100000 3) 0x401000 0x5000).2.2.1
      (by decide)⟩

/-- C4 counterexample: in one and the same space the directory entry and the
leaf entry of `0x00401000` are both non-empty; `get_mapping` returns 1 for
the `pa` argument `0x5000` and 0 for the `pa` argument 0, so the outcome is
not determined by the space and the address, and "not mapped" is reported
although both entries are non-empty. -/
theorem get_mapping_outcome_counterexample :
    (map 0x1000 fresh 0x401000 0x100000 3).pgd (PGD_INDEX 0x401000) &&& PAGE_MASK ≠ 0 ∧
    (map 0x1000 fresh 0x401000 0x100000 3).mem (leafAddr 0x1000 0x401000) ≠ 0 ∧
    get_mapping (map 0x1000 fresh 0x401000 0x100000 3) 0x401000 0x5000
      = { ret := 1, pa := 0x100000 } ∧
    get_mapping (map 0x1000 fresh 0x401000 0x100000 3) 0x401000 0
      = { ret := 0, pa := 0 } := by
  decide

/-- With the directory kept apart from memory: when the directory entry of
`v` is empty and the frame is non-null and page-aligned, `map` makes one
`pmm_alloc` call, with count 1, stores the frame address with the present and
writable flags in the directory entry of `v`, leaves every other directory
entry unchanged, and leaves the new table zero except for the leaf entry of
`v`; the lookups of `v` and of the other pages under the same directory entry
follow. -/
theorem split_map_new_table (frame : Nat) (s : VmState) (va pa flags : Nat)
    (hempty : s.pgd (PGD_INDEX va) &&& PAGE_MASK = 0) (hg : goodFrame frame) :
    (map frame s va pa flags).pmm_calls = 1 :: s.pmm_calls ∧
    (map frame s va pa flags).pgd (PGD_INDEX va) = frame ||| PAGE_PRESENT ||| PAGE_WRITE ∧
    (∀ k, k ≠ PGD_INDEX va → (map frame s va pa flags).pgd k = s.pgd k) ∧
    (map frame s va pa flags).mem (entryAddr (toLinear frame) (PTE_INDEX va))
      = u32 ((pa &&& PAGE_MASK) ||| flags) ∧
    (∀ k, k < PTE_SIZE → k ≠ PTE_INDEX va →
      (map frame s va pa flags).mem (entryAddr (toLinear frame) k) = 0) ∧
    (∀ va' q, PGD_INDEX va' = PGD_INDEX va → PTE_INDEX va' ≠ PTE_INDEX va →
      (get_mapping (map frame s va pa flags) va' q).ret = 0) ∧
    (∀ q, u32 ((pa &&& PAGE_MASK) ||| flags) ≠ 0 → q ≠ 0 →
      (get_mapping (map frame s va pa flags) va q).ret = 1 ∧
      (flags < PAGE_SIZE →
        (get_mapping (map frame s va pa flags) va q).pa = pa &&& PAGE_MASK)) := by
  have hu : u32 frame = frame := by
    have h := (goodFrame_iff frame).1 hg
    rw [u32_eq]
    omega
  have e := map_of_empty frame s va pa flags hempty
  rw [hu] at e
  have hpgd : (map frame s va pa flags).pgd (PGD_INDEX va) &&& PAGE_MASK = frame := by
    have h := map_pgd_table frame s va pa flags (fun _ => hg)
    unfold tableOf at h
    rw [if_pos hempty, hu] at h
    exact h
  have hne : frame ≠ 0 := by
    have h := (goodFrame_iff frame).1 hg
    omega
  refine ⟨?_, ?_, ?_, ?_, ?_, ?_, ?_⟩
  · rw [e]
    rfl
  · rw [e]
    have h := (goodFrame_iff frame).1 hg
    rw [store_pgd, bzero_pgd, setPgd_pgd, if_pos rfl, or_present_write frame h.1, u32_eq]
    omega
  · intro k hk
    rw [e]
    rw [store_pgd, bzero_pgd, setPgd_pgd, if_neg hk]
  · have h := map_mem_leaf frame s va pa flags
    unfold tableOf leafAddr at h
    rw [if_pos hempty, hu] at h
    exact h
  · intro k hk hkne
    have h := map_of_empty_mem frame s va pa flags hempty k hk hkne
    rw [hu] at h
    exact h
  · intro va' q h1 h2
    have hpgd' : (map frame s va pa flags).pgd (PGD_INDEX va') &&& PAGE_MASK = frame := by
      rw [h1]
      exact hpgd
    rw [get_mapping_of_table _ va' q frame hpgd' hne]
    have hz : (map frame s va pa flags).mem (leafAddr frame va') = 0 := by
      have h := map_of_empty_mem frame s va pa flags hempty (PTE_INDEX va') (PTE_INDEX_lt va') h2
      rw [hu] at h
      exact h
    rw [if_neg (fun hc => hc.1 hz)]
  · intro q hleaf hq
    rw [get_mapping_after_map frame s va pa flags q (fun _ => hg) hleaf hq]
    exact ⟨rfl, fun hfl => leaf_page_bits pa flags hfl⟩

/-! ## The state after `vmm_init` -/

theorem pgd_loop_mem (pk first : Nat) :
    ∀ n i j s, PTE_COUNT + first - i = n →
      (vmm_init_pgd_loop pk first i j s).mem = s.mem ∧
      (vmm_init_pgd_loop pk first i j s).pmm_calls = s.pmm_calls ∧
      (vmm_init_pgd_loop pk first i j s).cr3 = s.cr3 ∧
      (vmm_init_pgd_loop pk first i j s).pf_vectors = s.pf_vectors := by
  intro n
  induction n with
  | zero =>
    intro i j s h
    rw [vmm_init_pgd_loop, if_neg (by omega)]
    exact ⟨rfl, rfl, rfl, rfl⟩
  | succ n ih =>
    intro i j s h
    rw [vmm_init_pgd_loop, if_pos (by omega)]
    exact ih (i + 1) (j + 1) _ (by omega)

theorem pgd_loop_pgd (pk first : Nat) :
    ∀ n i j s, PTE_COUNT + first - i = n → ∀ k,
      (vmm_init_pgd_loop pk first i j s).pgd k
        = if i ≤ k ∧ k < PTE_COUNT + first then u32 (dirEntry pk (j + (k - i))) else s.pgd k := by
  intro n
  induction n with
  | zero =>
    intro i j s h k
    rw [vmm_init_pgd_loop, if_neg (by omega), if_neg (by omega)]
  | succ n ih =>
    intro i j s h k
    rw [vmm_init_pgd_loop, if_pos (by omega), ih (i + 1) (j + 1) _ (by omega) k]
    by_cases h1 : i + 1 ≤ k ∧ k < PTE_COUNT + first
    · rw [if_pos h1, if_pos ⟨by omega, h1.2⟩]
      congr 2
      omega
    · rw [if_neg h1, setPgd_pgd]
      by_cases h2 : k = i
      · subst h2
        rw [if_pos rfl, if_pos ⟨Nat.le_refl _, by omega⟩, Nat.sub_self, Nat.add_zero]
      · rw [if_neg h2, if_neg (by omega)]

theorem pte_loop_pgd (pte : Nat) :
    ∀ n i s, PTE_COUNT * PTE_SIZE - i = n →
      (vmm_init_pte_loop pte i s).pgd = s.pgd ∧
      (vmm_init_pte_loop pte i s).pmm_calls = s.pmm_calls ∧
      (vmm_init_pte_loop pte i s).cr3 = s.cr3 ∧
      (vmm_init_pte_loop pte i s).pf_vectors = s.pf_vectors := by
  intro n
  induction n with
  | zero =>
    intro i s h
    rw [vmm_init_pte_loop, if_neg (by omega)]
    exact ⟨rfl, rfl, rfl, rfl⟩
  | succ n ih =>
    intro i s h
    rw [vmm_init_pte_loop, if_pos (by omega)]
    exact ih (i + 1) _ (by omega)

theorem pte_loop_mem (pte : Nat) :
    ∀ n i s, PTE_COUNT * PTE_SIZE - i = n → ∀ k,
      (vmm_init_pte_loop pte i s).mem (entryAddr pte k)
        = if i ≤ k ∧ k < PTE_COUNT * PTE_SIZE then u32 (leafEntry k)
          else s.mem (entryAddr pte k) := by
  intro n
  induction n with
  | zero =>
    intro i s h k
    rw [vmm_init_pte_loop, if_neg (by omega), if_neg (by omega)]
  | succ n ih =>
    intro i s h k
    rw [vmm_init_pte_loop, if_pos (by omega), ih (i + 1) _ (by omega) k]
    by_cases h1 : i + 1 ≤ k ∧ k < PTE_COUNT * PTE_SIZE
    · rw [if_pos h1, if_pos ⟨by omega, h1.2⟩]
    · rw [if_neg h1, store_mem]
      by_cases h2 : k = i
      · subst h2
        rw [if_pos rfl, if_pos ⟨Nat.le_refl _, by omega⟩]
      · have h3 : entryAddr pte k ≠ entryAddr pte i := fun e => h2 (entryAddr_inj _ _ _ e)
        rw [if_neg h3, if_neg (by omega)]

theorem vmm_init_eq (pgdk pk : Nat) (s : VmState) :
    vmm_init pgdk pk s
      = ((vmm_init_pte_loop pk 1
            (vmm_init_pgd_loop pk (PGD_INDEX PAGE_OFFSET) (PGD_INDEX PAGE_OFFSET) 0
              s)).register_interrupt_handler INT_PAGE_FAULT).switch_pgd
          (u32 (pgdk + WORD - PAGE_OFFSET)) := rfl

theorem switch_pgd_pgd (s : VmState) (pd : Nat) : (s.switch_pgd pd).pgd = s.pgd := rfl

theorem switch_pgd_mem (s : VmState) (pd : Nat) : (s.switch_pgd pd).mem = s.mem := rfl

theorem register_pgd (s : VmState) (v : Nat) :
    (s.register_interrupt_handler v).pgd = s.pgd := rfl

theorem register_mem (s : VmState) (v : Nat) :
    (s.register_interrupt_handler v).mem = s.mem := rfl

theorem vmm_init_pgd (pgdk pk : Nat) (s : VmState) (k : Nat) :
    (vmm_init pgdk pk s).pgd k
      = if PGD_INDEX PAGE_OFFSET ≤ k ∧ k < PTE_COUNT + PGD_INDEX PAGE_OFFSET
        then u32 (dirEntry pk (k - PGD_INDEX PAGE_OFFSET)) else s.pgd k := by
  rw [vmm_init_eq, switch_pgd_pgd, register_pgd, (pte_loop_pgd pk _ 1 _ rfl).1,
    pgd_loop_pgd pk _ _ _ 0 s rfl k, Nat.zero_add]

theorem vmm_init_mem (pgdk pk : Nat) (s : VmState) (k : Nat) :
    (vmm_init pgdk pk s).mem (entryAddr pk k)
      = if 1 ≤ k ∧ k < PTE_COUNT * PTE_SIZE then u32 (leafEntry k)
        else s.mem (entryAddr pk k) := by
  rw [vmm_init_eq, switch_pgd_mem, register_mem, pte_loop_mem pk _ 1 _ rfl k,
    (pgd_loop_mem pk _ _ _ 0 s rfl).1]

theorem PGD_INDEX_PAGE_OFFSET : PGD_INDEX PAGE_OFFSET = 768 := by decide

theorem dirEntry_table (pk j : Nat) (hal : pk % 4096 = 0) (hlo : 3221225472 < pk)
    (hhi : pk + j * 4096 < 4294967296) :
    u32 (dirEntry pk j) &&& PAGE_MASK = pk + j * 4096 - 3221225472 := by
  have e : u32 (rowAddr pk j + WORD - PAGE_OFFSET) = pk + j * 4096 - 3221225472 := by
    rw [u32_eq]
    unfold rowAddr WORD PAGE_OFFSET PTE_SIZE PTE_BYTES
    omega
  unfold dirEntry
  rw [e, or_present_write _ (by omega), and_PAGE_MASK, u32_eq]
  omega

theorem leafEntry_val (i : Nat) (hi : i < 131072) : u32 (leafEntry i) = i * 4096 + 3 := by
  have e : u32 (i <<< 12) = i * 4096 := by
    rw [u32_eq, Nat.shiftLeft_eq]
    omega
  unfold leafEntry
  rw [e, or_present_write _ (by omega), u32_eq]
  omega

theorem vmm_init_window (pgdk pk : Nat) (s : VmState) (a q : Nat)
    (hal : pk % PAGE_SIZE = 0) (hlo : PAGE_OFFSET < pk)
    (hhi : pk + PTE_COUNT * (PTE_SIZE * PTE_BYTES) ≤ WORD)
    (ha : a % PAGE_SIZE = 0) (h0 : 0 < a) (hlt : a < PTE_COUNT * PTE_SIZE * PAGE_SIZE)
    (hq : q ≠ 0) :
    get_mapping (vmm_init pgdk pk s) (PAGE_OFFSET + a) q = { ret := 1, pa := a } := by
  have hal' : pk % 4096 = 0 := hal
  have hlo' : 3221225472 < pk := hlo
  have hhi' : pk + 128 * (1024 * 4) ≤ 4294967296 := hhi
  have ha' : a % 4096 = 0 := ha
  have hlt' : a < 128 * 1024 * 4096 := hlt
  have hidx : PGD_INDEX (PAGE_OFFSET + a) = 768 + a / 4194304 := by
    rw [PGD_INDEX_eq]
    unfold PAGE_OFFSET
    omega
  have hpte : PTE_INDEX (PAGE_OFFSET + a) = a / 4096 % 1024 := by
    rw [PTE_INDEX_eq]
    unfold PAGE_OFFSET
    omega
  have hdir : (vmm_init pgdk pk s).pgd (PGD_INDEX (PAGE_OFFSET + a)) &&& PAGE_MASK
      = pk + a / 4194304 * 4096 - 3221225472 := by
    rw [vmm_init_pgd, PGD_INDEX_PAGE_OFFSET, hidx,
      if_pos ⟨by omega, by unfold PTE_COUNT; omega⟩,
      show 768 + a / 4194304 - 768 = a / 4194304 by omega]
    exact dirEntry_table pk _ hal' hlo' (by omega)
  have haddr : leafAddr (pk + a / 4194304 * 4096 - 3221225472) (PAGE_OFFSET + a)
      = entryAddr pk (a / 4096) := by
    unfold leafAddr
    rw [hpte]
    unfold entryAddr toLinear PTE_BYTES
    rw [u32_eq]
    unfold PAGE_OFFSET
    omega
  have hleaf : (vmm_init pgdk pk s).mem (entryAddr pk (a / 4096)) = a + 3 := by
    rw [vmm_init_mem, if_pos ⟨by omega, by unfold PTE_COUNT PTE_SIZE; omega⟩,
      leafEntry_val _ (by omega)]
    omega
  rw [get_mapping_of_table _ _ q _ hdir (by omega), haddr, hleaf,
    if_pos ⟨by omega, hq⟩, and_PAGE_MASK]
  rw [show (a + 3) % 4294967296 / 4096 * 4096 = a by omega]

theorem get_mapping_of_empty (s : VmState) (va q : Nat)
    (h : s.pgd (PGD_INDEX va) &&& PAGE_MASK = 0) :
    get_mapping s va q = { ret := 0, pa := q } := by
  unfold get_mapping
  rw [if_pos h]

/-! ## Claims about `vmm_init` -/

/-- C6: after `vmm_init`, with `pte_kernel` linked page-aligned above
`PAGE_OFFSET` and below the end of the 32-bit address space, for every
page-aligned `a` with `0 < a < PTE_COUNT * PTE_SIZE * PAGE_SIZE`,
`get_mapping` on `PAGE_OFFSET + a` with a non-null `pa` argument returns 1
and assigns `a` to its parameter variable `pa`.  The word handed back to the
caller is 1, never `a`; with a null `pa` argument the same address is
reported "not mapped". -/
theorem vmm_init_get_mapping (pgdk pk : Nat) (s : VmState) (a q : Nat)
    (hal : pk % PAGE_SIZE = 0) (hlo : PAGE_OFFSET < pk)
    (hhi : pk + PTE_COUNT * (PTE_SIZE * PTE_BYTES) ≤ WORD)
    (ha : a % PAGE_SIZE = 0) (h0 : 0 < a) (hlt : a < PTE_COUNT * PTE_SIZE * PAGE_SIZE)
    (hq : q ≠ 0) :
    (get_mapping (vmm_init pgdk pk s) (PAGE_OFFSET + a) q).ret = 1 ∧
    (get_mapping (vmm_init pgdk pk s) (PAGE_OFFSET + a) q).pa = a ∧
    (get_mapping (vmm_init pgdk pk s) (PAGE_OFFSET + a) q).ret ≠ a ∧
    (get_mapping (vmm_init pgdk pk s) (PAGE_OFFSET + a) 0).ret = 0 := by
  rw [vmm_init_window pgdk pk s a q hal hlo hhi ha h0 hlt hq]
  refine ⟨rfl, rfl, ?_, ?_⟩
  · show (1 : Nat) ≠ a
    have ha' : a % 4096 = 0 := ha
    omega
  · rcases get_mapping_ret_cases (vmm_init pgdk pk s) (PAGE_OFFSET + a) 0 with h | h
    · rw [get_mapping_ret_iff] at h
      exact absurd rfl h.2.2
    · exact h

/-- C6 witness: the first mapped page of the kernel window, `a = 0x1000`, with
`pgd_kernel` linked at `0xC0200000` and `pte_kernel` at `0xC0201000`. -/
theorem vmm_init_get_mapping_witness :
    (0xC0201000 % PAGE_SIZE = 0 ∧ PAGE_OFFSET < 0xC0201000 ∧
      0xC0201000 + PTE_COUNT * (PTE_SIZE * PTE_BYTES) ≤ WORD) ∧
    (0x1000 % PAGE_SIZE = 0 ∧ 0 < 0x1000 ∧ 0x1000 < PTE_COUNT * PTE_SIZE * PAGE_SIZE) ∧
    (get_mapping (vmm_init 0xC0200000 0xC0201000 fresh) (PAGE_OFFSET + 0x1000) 1).ret = 1 ∧
    (get_mapping (vmm_init 0xC0200000 0xC0201000 fresh) (PAGE_OFFSET + 0x1000) 1).pa = 0x1000 ∧
    (get_mapping (vmm_init 0xC0200000 0xC0201000 fresh) (PAGE_OFFSET + 0x1000) 1).ret ≠ 0x1000 ∧
    (get_mapping (vmm_init 0xC0200000 0xC0201000 fresh) (PAGE_OFFSET + 0x1000) 0).ret = 0 :=
  ⟨by decide, by decide,
    vmm_init_get_mapping 0xC0200000 0xC0201000 fresh 0x1000 1
      (by decide) (by decide) (by decide) (by decide) (by decide) (by decide) (by decide)⟩

/-- C7: after `vmm_init` has run on the zero-initialised static tables,
`get_mapping` on virtual address 0 returns 0, whatever the `pa` argument. -/
theorem vmm_init_null_unmapped (pgdk pk : Nat) (s : VmState) (q : Nat)
    (hz : zeroInit pk s) :
    (get_mapping (vmm_init pgdk pk s) 0 q).ret = 0 := by
  have h0 : PGD_INDEX 0 = 0 := by decide
  have hp : (vmm_init pgdk pk s).pgd (PGD_INDEX 0) &&& PAGE_MASK = 0 := by
    rw [h0, vmm_init_pgd, PGD_INDEX_PAGE_OFFSET, if_neg (by omega), hz.1 0 (by decide)]
    exact Nat.zero_and _
  rw [get_mapping_of_empty _ _ q hp]

/-- C7 witness: `vmm_init` on the fresh state, whose tables are all zero. -/
theorem vmm_init_null_unmapped_witness :
    zeroInit 0xC0201000 fresh ∧
    (get_mapping (vmm_init 0xC0200000 0xC0201000 fresh) 0 1).ret = 0 :=
  ⟨⟨fun _ _ => rfl, fun _ _ => rfl⟩,
    vmm_init_null_unmapped 0xC0200000 0xC0201000 fresh 1 ⟨fun _ _ => rfl, fun _ _ => rfl⟩⟩

/-! ## `unmap` on an address that is not mapped -/

theorem store_same (s : VmState) (a v : Nat) (h : s.mem a = u32 v) : s.store a v = s := by
  cases s with
  | mk pgd mem calls cr3 pf =>
    have e : (fun k => if k = a then u32 v else mem k) = mem := by
      funext k
      by_cases hk : k = a
      · rw [if_pos hk, hk]
        exact h.symm
      · rw [if_neg hk]
    show VmState.mk pgd (fun k => if k = a then u32 v else mem k) calls cr3 pf = _
    rw [e]

/-- C8: `unmap` on an address that is not mapped (its directory entry is
empty, or its leaf entry is empty) returns the state unchanged, directory and
tables included; and for every state and address, `unmap` applied twice gives
the same state as `unmap` applied once. -/
theorem unmap_unmapped (s : VmState) (va : Nat) :
    ((s.pgd (PGD_INDEX va) &&& PAGE_MASK = 0 ∨
        s.mem (leafAddr (s.pgd (PGD_INDEX va) &&& PAGE_MASK) va) = 0) →
      unmap s va = s) ∧
    unmap (unmap s va) va = unmap s va := by
  constructor
  · intro h
    by_cases c : s.pgd (PGD_INDEX va) &&& PAGE_MASK = 0
    · exact unmap_of_empty s va c
    · rw [unmap_of_table s va c]
      rcases h with h | h
      · exact absurd h c
      · exact store_same s _ 0 h
  · by_cases c : s.pgd (PGD_INDEX va) &&& PAGE_MASK = 0
    · rw [unmap_of_empty s va c, unmap_of_empty s va c]
    · rw [unmap_of_table s va c]
      have c2 : (s.store (leafAddr (s.pgd (PGD_INDEX va) &&& PAGE_MASK) va) 0).pgd
          (PGD_INDEX va) &&& PAGE_MASK ≠ 0 := c
      rw [unmap_of_table _ va c2, store_pgd]
      apply store_same
      rw [store_mem, if_pos rfl]

/-- C8 witness: `0x00401000` is not mapped in the fresh space, and is not
mapped in the space left by a `map` followed by an `unmap` of it. -/
theorem unmap_unmapped_witness :
    (fresh.pgd (PGD_INDEX 0x401000) &&& PAGE_MASK = 0 ∨
      fresh.mem (leafAddr (fresh.pgd (PGD_INDEX 0x401000) &&& PAGE_MASK) 0x401000) = 0) ∧
    unmap fresh 0x401000 = fresh ∧
    unmap (unmap (map 0x1000 fresh 0x401000 0x100000 3) 0x401000) 0x401000
      = unmap (map 0x1000 fresh 0x401000 0x100000 3) 0x401000 :=
  ⟨Or.inl (by decide), (unmap_unmapped fresh 0x401000).1 (Or.inl (by decide)),
    (unmap_unmapped (map 0x1000 fresh 0x401000 0x100000 3) 0x401000).2⟩

/-! ## Claims about `page_fault` -/

theorem and_bit (c k : Nat) : c &&& 2 ^ k ≠ 0 ↔ c.testBit k = true := by
  rw [Nat.and_two_pow]
  cases c.testBit k with
  | true => simp
  | false => simp

theorem and_bit_zero (c k : Nat) : c &&& 2 ^ k = 0 ↔ c.testBit k = false := by
  rw [Nat.and_two_pow]
  cases c.testBit k with
  | true => simp
  | false => simp

theorem page_fault_eq (eip c cr2 : Nat) :
    page_fault eip c cr2 =
      [FaultMsg.fault_at eip cr2, FaultMsg.error_code c]
      ++ (if c.testBit 0 = false then [FaultMsg.not_present] else [])
      ++ (if c.testBit 1 = true then [FaultMsg.write_error] else [FaultMsg.read_error])
      ++ (if c.testBit 2 = true then [FaultMsg.user_mode] else [FaultMsg.kernel_mode])
      ++ (if c.testBit 3 = true then [FaultMsg.reserved_bits] else [])
      ++ (if c.testBit 4 = true then [FaultMsg.instr_fetch] else []) := by
  have h0 : (c &&& 0x1 = 0) ↔ c.testBit 0 = false := and_bit_zero c 0
  have h1 : (c &&& 0x2 ≠ 0) ↔ c.testBit 1 = true := and_bit c 1
  have h2 : (c &&& 0x4 ≠ 0) ↔ c.testBit 2 = true := and_bit c 2
  have h3 : (c &&& 0x8 ≠ 0) ↔ c.testBit 3 = true := and_bit c 3
  have h4 : (c &&& 0x10 ≠ 0) ↔ c.testBit 4 = true := and_bit c 4
  unfold page_fault
  simp only [h0, h1, h2, h3, h4]

/-- C9: for every fault-reason code, `page_fault` reports write access iff
bit 1 is set and read access iff it is clear, user mode iff bit 2 is set and
kernel mode iff it is clear, a reserved-bit violation iff bit 3 is set, an
instruction fetch iff bit 4 is set, and page-not-present iff bit 0 is clear;
each fact is decided by its own bit alone, whatever the other bits, the
instruction pointer and the fault address are.  A code with bit 0 clear,
bit 1 set and bits 2, 3, 4 clear is reported exactly as not-present, write
access, kernel mode, after the two header lines. -/
theorem page_fault_decode (eip c cr2 : Nat) :
    (FaultMsg.write_error ∈ page_fault eip c cr2 ↔ c.testBit 1 = true) ∧
    (FaultMsg.read_error ∈ page_fault eip c cr2 ↔ c.testBit 1 = false) ∧
    (FaultMsg.user_mode ∈ page_fault eip c cr2 ↔ c.testBit 2 = true) ∧
    (FaultMsg.kernel_mode ∈ page_fault eip c cr2 ↔ c.testBit 2 = false) ∧
    (FaultMsg.reserved_bits ∈ page_fault eip c cr2 ↔ c.testBit 3 = true) ∧
    (FaultMsg.instr_fetch ∈ page_fault eip c cr2 ↔ c.testBit 4 = true) ∧
    (FaultMsg.not_present ∈ page_fault eip c cr2 ↔ c.testBit 0 = false) ∧
    (c.testBit 0 = false → c.testBit 1 = true → c.testBit 2 = false →
      c.testBit 3 = false → c.testBit 4 = false →
      page_fault eip c cr2 =
        [FaultMsg.fault_at eip cr2, FaultMsg.error_code c, FaultMsg.not_present,
          FaultMsg.write_error, FaultMsg.kernel_mode]) := by
  rw [page_fault_eq]
  cases c.testBit 0 <;> cases c.testBit 1 <;> cases c.testBit 2 <;> cases c.testBit 3 <;>
    cases c.testBit 4 <;> simp

/-- C9 witness: the fault-reason code 2 (bit 1 set only). -/
theorem page_fault_decode_witness :
    page_fault 0xC0100000 2 0x1000 =
      [FaultMsg.fault_at 0xC0100000 0x1000, FaultMsg.error_code 2, FaultMsg.not_present,
        FaultMsg.write_error, FaultMsg.kernel_mode] :=
  (page_fault_decode 0xC0100000 2 0x1000).2.2.2.2.2.2.2
    (by decide) (by decide) (by decide) (by decide) (by decide)

/-- C10, as amended: for every fault-reason code, `page_fault` prints the
page-not-present line exactly once when bit 0 is clear and prints no line
about the present / protection fact when bit 0 is set; the raw error code,
which holds bit 0, is printed for every code. -/
theorem page_fault_presence (eip c cr2 : Nat) :
    (c.testBit 0 = false →
      (page_fault eip c cr2).filter isPresenceFact = [FaultMsg.not_present]) ∧
    (c.testBit 0 = true → (page_fault eip c cr2).filter isPresenceFact = []) ∧
    FaultMsg.error_code c ∈ page_fault eip c cr2 := by
  rw [page_fault_eq]
  cases c.testBit 0 <;> cases c.testBit 1 <;> cases c.testBit 2 <;> cases c.testBit 3 <;>
    cases c.testBit 4 <;> simp [List.filter, isPresenceFact]

/-- C10 witness: code 2 has bit 0 clear, code 3 has bit 0 set. -/
theorem page_fault_presence_witness :
    (Nat.testBit 2 0 = false ∧
      (page_fault 0 2 0).filter isPresenceFact = [FaultMsg.not_present]) ∧
    (Nat.testBit 3 0 = true ∧ (page_fault 0 3 0).filter isPresenceFact = []) :=
  ⟨⟨by decide, (page_fault_presence 0 2 0).1 (by decide)⟩,
    ⟨by decide, (page_fault_presence 0 3 0).2.1 (by decide)⟩⟩

/-- C10 counterexample: for the fault-reason code 1 (bit 0 set, a protection
violation) the lines printed are the two header lines, read access and kernel
mode; none of them states the present / protection fact, so the number of
such facts reported is 0, not 1. -/
theorem page_fault_presence_counterexample :
    page_fault 0 1 0 =
      [FaultMsg.fault_at 0 0, FaultMsg.error_code 1, FaultMsg.read_error,
        FaultMsg.kernel_mode] ∧
    ((page_fault 0 1 0).filter isPresenceFact).length = 0 := by
  decide

/-! ## Further arithmetic of entries and addresses -/

theorem or_and_PAGE_MASK (x f : Nat) (hf : f < 4096) :
    (x ||| f) &&& PAGE_MASK = x &&& PAGE_MASK := by
  have h : PAGE_MASK = (2 ^ 20 - 1) <<< 12 := by decide
  apply Nat.eq_of_testBit_eq
  intro i
  rw [h, Nat.testBit_and, Nat.testBit_and, Nat.testBit_or, Nat.testBit_shiftLeft]
  by_cases h1 : 12 ≤ i
  · have hlt : f < 2 ^ i :=
      Nat.lt_of_lt_of_le hf (by
        rw [show (4096 : Nat) = 2 ^ 12 by norm_num]
        exact Nat.pow_le_pow_right (by omega) h1)
    rw [Nat.testBit_lt_two_pow hlt, Bool.or_false]
  · simp [h1]

theorem mask_aligned (x : Nat) :
    (x &&& PAGE_MASK) % 4096 = 0 ∧ x &&& PAGE_MASK < 4294967296 := by
  rw [and_PAGE_MASK]
  omega

theorem dirEntry_u32 (pk j : Nat) : u32 (dirEntry pk j) = dirEntry pk j := by
  have h1 : u32 (rowAddr pk j + WORD - PAGE_OFFSET) < 2 ^ 32 := by
    rw [u32_eq]
    omega
  have h2 : dirEntry pk j < 2 ^ 32 := by
    unfold dirEntry
    exact Nat.or_lt_two_pow (Nat.or_lt_two_pow h1 (by decide)) (by decide)
  rw [u32_eq]
  omega

theorem dirEntry_bits (pk j : Nat) :
    u32 (dirEntry pk j) &&& PAGE_MASK
      = (pk + j * 4096 + 1073741824) % 4294967296 / 4096 * 4096 := by
  have e : u32 (rowAddr pk j + WORD - PAGE_OFFSET) = (pk + j * 4096 + 1073741824) % 4294967296 := by
    rw [u32_eq]
    unfold rowAddr WORD PAGE_OFFSET PTE_SIZE PTE_BYTES
    omega
  rw [dirEntry_u32]
  unfold dirEntry
  rw [Nat.lor_assoc, show PAGE_PRESENT ||| PAGE_WRITE = 3 by decide,
    or_and_PAGE_MASK _ 3 (by omega), e, and_PAGE_MASK]
  omega

theorem frame_entry (frame : Nat) (h1 : frame % 4096 = 0) (h2 : frame < 4294967296) :
    u32 (u32 frame ||| PAGE_PRESENT ||| PAGE_WRITE) &&& PAGE_MASK = frame := by
  have hu : u32 frame = frame := by rw [u32_eq]; omega
  rw [hu, or_present_write frame h1, and_PAGE_MASK, u32_eq]
  omega

theorem PGD_INDEX_lt (va : Nat) : PGD_INDEX va < PGD_SIZE := by
  rw [PGD_INDEX_eq]
  show _ < 1024
  omega

theorem leafAddr_inj (a b va va' : Nat) (ha : a % 4096 = 0) (ha2 : a < 4294967296)
    (hb : b % 4096 = 0) (hb2 : b < 4294967296) (h : leafAddr a va = leafAddr b va') :
    a = b ∧ PTE_INDEX va = PTE_INDEX va' := by
  have h1 := PTE_INDEX_lt va
  have h2 := PTE_INDEX_lt va'
  unfold PTE_SIZE at h1 h2
  unfold leafAddr entryAddr toLinear PTE_BYTES at h
  rw [u32_eq, u32_eq] at h
  unfold PAGE_OFFSET at h
  omega

theorem leafAddr_range (a va : Nat) (ha : a % 4096 = 0) :
    toLinear a ≤ leafAddr a va ∧ leafAddr a va < toLinear a + 4096 ∧ toLinear a % 4096 = 0 := by
  have h1 := PTE_INDEX_lt va
  unfold PTE_SIZE at h1
  unfold leafAddr entryAddr toLinear PTE_BYTES
  rw [u32_eq]
  unfold PAGE_OFFSET
  omega

theorem toLinear_inj (a b : Nat) (ha2 : a < 4294967296) (hb2 : b < 4294967296)
    (h : toLinear a = toLinear b) : a = b := by
  unfold toLinear at h
  rw [u32_eq, u32_eq] at h
  unfold PAGE_OFFSET at h
  omega

theorem unmap_pgd (s : VmState) (va : Nat) : (unmap s va).pgd = s.pgd := by
  by_cases c : s.pgd (PGD_INDEX va) &&& PAGE_MASK = 0
  · rw [unmap_of_empty s va c]
  · rw [unmap_of_table s va c, store_pgd]

theorem unmap_pmm_calls (s : VmState) (va : Nat) : (unmap s va).pmm_calls = s.pmm_calls := by
  by_cases c : s.pgd (PGD_INDEX va) &&& PAGE_MASK = 0
  · rw [unmap_of_empty s va c]
  · rw [unmap_of_table s va c, store_pmm_calls]

theorem unmap_mem (s : VmState) (va a : Nat) :
    (unmap s va).mem a
      = if s.pgd (PGD_INDEX va) &&& PAGE_MASK ≠ 0
          ∧ a = leafAddr (s.pgd (PGD_INDEX va) &&& PAGE_MASK) va then 0 else s.mem a := by
  by_cases c : s.pgd (PGD_INDEX va) &&& PAGE_MASK = 0
  · rw [unmap_of_empty s va c, if_neg (fun h => h.1 c)]
  · rw [unmap_of_table s va c, store_mem]
    by_cases e : a = leafAddr (s.pgd (PGD_INDEX va) &&& PAGE_MASK) va
    · rw [if_pos e, if_pos ⟨c, e⟩]
      rfl
    · rw [if_neg e, if_neg (fun h => e h.2)]

/-! ## Translations of other pages -/

theorem get_mapping_congr (s s' : VmState) (va q : Nat)
    (hp : s'.pgd (PGD_INDEX va) = s.pgd (PGD_INDEX va))
    (hm : s.pgd (PGD_INDEX va) &&& PAGE_MASK ≠ 0 →
      s'.mem (leafAddr (s.pgd (PGD_INDEX va) &&& PAGE_MASK) va)
        = s.mem (leafAddr (s.pgd (PGD_INDEX va) &&& PAGE_MASK) va)) :
    get_mapping s' va q = get_mapping s va q := by
  by_cases c : s.pgd (PGD_INDEX va) &&& PAGE_MASK = 0
  · rw [get_mapping_of_empty s va q c, get_mapping_of_empty s' va q (by rw [hp]; exact c)]
  · rw [get_mapping_of_table s va q _ rfl c,
      get_mapping_of_table s' va q (s.pgd (PGD_INDEX va) &&& PAGE_MASK) (by rw [hp]) c, hm c]

theorem leafAddr_ne (s : VmState) (va va' : Nat) (t : Nat)
    (ht : t % 4096 = 0) (ht2 : t < 4294967296)
    (hne : PGD_INDEX va' = PGD_INDEX va → PTE_INDEX va' ≠ PTE_INDEX va)
    (hsh : PGD_INDEX va' ≠ PGD_INDEX va → s.pgd (PGD_INDEX va') &&& PAGE_MASK ≠ t) :
    leafAddr (s.pgd (PGD_INDEX va') &&& PAGE_MASK) va' ≠ leafAddr t va := by
  intro e
  have hm := mask_aligned (s.pgd (PGD_INDEX va'))
  have h := leafAddr_inj _ _ _ _ hm.1 hm.2 ht ht2 e
  by_cases c : PGD_INDEX va' = PGD_INDEX va
  · exact hne c h.2
  · exact hsh c h.1

theorem map_other_page (frame : Nat) (s : VmState) (va pa flags va' q : Nat)
    (hns : noSharing s) (hfr : unusedFrame s frame) (hp : otherPage va va') :
    get_mapping (map frame s va pa flags) va' q = get_mapping s va' q := by
  have hf1 : frame % 4096 = 0 := hfr.1
  have hf2 : frame < 4294967296 := hfr.2.1
  have hu : u32 frame = frame := by rw [u32_eq]; omega
  have hpte : PGD_INDEX va' = PGD_INDEX va → PTE_INDEX va' ≠ PTE_INDEX va := by
    intro h
    rcases hp with h1 | h1
    · exact absurd h h1
    · exact h1
  by_cases c : s.pgd (PGD_INDEX va) &&& PAGE_MASK = 0
  · -- a new table is installed
    rw [map_of_empty frame s va pa flags c, hu]
    by_cases hi : PGD_INDEX va' = PGD_INDEX va
    · have c' : s.pgd (PGD_INDEX va') &&& PAGE_MASK = 0 := by rw [hi]; exact c
      rw [get_mapping_of_empty s va' q c']
      have ht : ((bzero (VmState.setPgd { s with pmm_calls := 1 :: s.pmm_calls } (PGD_INDEX va)
            (frame ||| PAGE_PRESENT ||| PAGE_WRITE)) (toLinear frame) PAGE_SIZE).store
          (leafAddr frame va) ((pa &&& PAGE_MASK) ||| flags)).pgd (PGD_INDEX va') &&& PAGE_MASK
          = frame := by
        rw [store_pgd, bzero_pgd, setPgd_pgd, if_pos hi]
        have h := frame_entry frame hf1 hf2
        rw [hu] at h
        exact h
      by_cases h0 : frame = 0
      · exact get_mapping_of_empty _ va' q (by rw [ht]; exact h0)
      · rw [get_mapping_of_table _ va' q frame ht h0]
        have hz := map_of_empty_mem frame s va pa flags c (PTE_INDEX va') (PTE_INDEX_lt va')
          (hpte hi)
        rw [map_of_empty frame s va pa flags c, hu] at hz
        rw [if_neg (fun h => h.1 hz)]
    · apply get_mapping_congr
      · rw [store_pgd, bzero_pgd, setPgd_pgd, if_neg hi]
      · intro hT
        have hm := mask_aligned (s.pgd (PGD_INDEX va'))
        have hne : s.pgd (PGD_INDEX va') &&& PAGE_MASK ≠ frame :=
          hfr.2.2 (PGD_INDEX va') (PGD_INDEX_lt va') hT
        have h1 : leafAddr (s.pgd (PGD_INDEX va') &&& PAGE_MASK) va' ≠ leafAddr frame va :=
          leafAddr_ne s va va' frame hf1 hf2 hpte (fun _ => hne)
        have r1 := leafAddr_range (s.pgd (PGD_INDEX va') &&& PAGE_MASK) va' hm.1
        have r2 : toLinear frame % 4096 = 0 := (leafAddr_range frame va hf1).2.2
        have h2 : ¬ (toLinear frame ≤ leafAddr (s.pgd (PGD_INDEX va') &&& PAGE_MASK) va'
            ∧ leafAddr (s.pgd (PGD_INDEX va') &&& PAGE_MASK) va' < toLinear frame + PAGE_SIZE) := by
          intro h
          have h3 : leafAddr (s.pgd (PGD_INDEX va') &&& PAGE_MASK) va' < toLinear frame + 4096 :=
            h.2
          have h4 : toLinear (s.pgd (PGD_INDEX va') &&& PAGE_MASK) = toLinear frame := by
            omega
          exact hne (toLinear_inj _ _ hm.2 hf2 h4)
        rw [store_mem, if_neg h1, bzero_mem, if_neg h2, setPgd_mem]
  · -- the table exists: one leaf entry is written
    rw [map_of_table frame s va pa flags c]
    apply get_mapping_congr
    · rw [store_pgd]
    · intro hT
      have hm := mask_aligned (s.pgd (PGD_INDEX va))
      have h1 : leafAddr (s.pgd (PGD_INDEX va') &&& PAGE_MASK) va'
          ≠ leafAddr (s.pgd (PGD_INDEX va) &&& PAGE_MASK) va :=
        leafAddr_ne s va va' _ hm.1 hm.2 hpte
          (fun hi => hns (PGD_INDEX va') (PGD_INDEX va) (PGD_INDEX_lt va') (PGD_INDEX_lt va) hi hT)
      rw [store_mem, if_neg h1]

theorem vmm_init_pgd_zero (pgdk pk : Nat) (s : VmState) (hz : zeroInit pk s) :
    (vmm_init pgdk pk s).pgd (PGD_INDEX 0) &&& PAGE_MASK = 0 := by
  have h0 : PGD_INDEX 0 = 0 := by decide
  rw [h0, vmm_init_pgd, PGD_INDEX_PAGE_OFFSET, if_neg (by omega), hz.1 0 (by decide)]
  exact Nat.zero_and _

/-! ## Claims about the present flag and about address 0 -/

/-- C12 counterexample: after `vmm_init` on the fresh state `get_mapping` on
address 0 returns 0; `map(pgd_kernel, 0, 0x00100000, 3)` then maps address 0,
and `get_mapping` on address 0 returns 1. -/
theorem null_unmapped_invariant_counterexample :
    (get_mapping (vmm_init 0xC0200000 0xC0201000 fresh) 0 1).ret = 0 ∧
    (get_mapping (map 0x1000 (vmm_init 0xC0200000 0xC0201000 fresh) 0 0x100000 3) 0 1).ret
      = 1 :=
  ⟨congrArg GetMapping.ret (get_mapping_of_empty _ 0 1
      (vmm_init_pgd_zero 0xC0200000 0xC0201000 fresh ⟨fun _ _ => rfl, fun _ _ => rfl⟩)),
    congrArg GetMapping.ret (get_mapping_after_map 0x1000
      (vmm_init 0xC0200000 0xC0201000 fresh) 0 0x100000 3 1
      (fun _ => by unfold goodFrame; decide) (by decide) (by decide))⟩

/-! ## Table sharing and lazy allocation -/

theorem map_pgd (frame : Nat) (s : VmState) (va pa flags k : Nat) :
    (map frame s va pa flags).pgd k
      = if s.pgd (PGD_INDEX va) &&& PAGE_MASK = 0 ∧ k = PGD_INDEX va
        then u32 (u32 frame ||| PAGE_PRESENT ||| PAGE_WRITE) else s.pgd k := by
  by_cases c : s.pgd (PGD_INDEX va) &&& PAGE_MASK = 0
  · rw [map_of_empty frame s va pa flags c, store_pgd, bzero_pgd, setPgd_pgd]
    by_cases hk : k = PGD_INDEX va
    · rw [if_pos hk, if_pos ⟨c, hk⟩]
    · rw [if_neg hk, if_neg (fun h => hk h.2)]
  · rw [map_of_table frame s va pa flags c, store_pgd, if_neg (fun h => c h.1)]

theorem unmap_noSharing (s : VmState) (va : Nat) (h : noSharing s) :
    noSharing (unmap s va) := by
  intro i j hi hj hij hne
  rw [unmap_pgd] at hne ⊢
  exact h i j hi hj hij hne

theorem map_noSharing (frame : Nat) (s : VmState) (va pa flags : Nat)
    (hns : noSharing s) (hfr : unusedFrame s frame) :
    noSharing (map frame s va pa flags) := by
  have hf1 : frame % 4096 = 0 := hfr.1
  have hf2 : frame < 4294967296 := hfr.2.1
  have he := frame_entry frame hf1 hf2
  intro i j hi hj hij hne
  rw [map_pgd] at hne ⊢
  rw [map_pgd]
  by_cases ci : s.pgd (PGD_INDEX va) &&& PAGE_MASK = 0 ∧ i = PGD_INDEX va
  · rw [if_pos ci, he] at hne ⊢
    have cj : ¬ (s.pgd (PGD_INDEX va) &&& PAGE_MASK = 0 ∧ j = PGD_INDEX va) :=
      fun h => hij (ci.2.trans h.2.symm)
    rw [if_neg cj]
    by_cases hj0 : s.pgd j &&& PAGE_MASK = 0
    · rw [hj0]
      exact hne
    · exact fun e => hfr.2.2 j hj hj0 e.symm
  · rw [if_neg ci] at hne ⊢
    by_cases cj : s.pgd (PGD_INDEX va) &&& PAGE_MASK = 0 ∧ j = PGD_INDEX va
    · rw [if_pos cj, he]
      exact hfr.2.2 i hi hne
    · rw [if_neg cj]
      exact hns i j hi hj hij hne

/-! ## Frame conditions of `unmap` and `map` -/

theorem unmap_other_page (s : VmState) (va va' q : Nat)
    (hns : noSharing s) (hp : otherPage va va') :
    get_mapping (unmap s va) va' q = get_mapping s va' q := by
  have hpte : PGD_INDEX va' = PGD_INDEX va → PTE_INDEX va' ≠ PTE_INDEX va := by
    intro h
    rcases hp with h1 | h1
    · exact absurd h h1
    · exact h1
  apply get_mapping_congr
  · rw [unmap_pgd]
  · intro hT
    have hm := mask_aligned (s.pgd (PGD_INDEX va))
    have h1 : leafAddr (s.pgd (PGD_INDEX va') &&& PAGE_MASK) va'
        ≠ leafAddr (s.pgd (PGD_INDEX va) &&& PAGE_MASK) va :=
      leafAddr_ne s va va' _ hm.1 hm.2 hpte
        (fun hi => hns (PGD_INDEX va') (PGD_INDEX va) (PGD_INDEX_lt va') (PGD_INDEX_lt va) hi hT)
    rw [unmap_mem, if_neg (fun h => h1 h.2)]

theorem fresh_noSharing : noSharing fresh :=
  fun _ _ _ _ _ h => absurd (Nat.zero_and _) h

theorem fresh_unusedFrame (frame : Nat) (h1 : frame % PAGE_SIZE = 0) (h2 : frame < WORD) :
    unusedFrame fresh frame :=
  ⟨h1, h2, fun _ _ h => absurd (Nat.zero_and _) h⟩

/-! ## The entries written by `vmm_init` -/

theorem PTE_INDEX_PAGE_OFFSET : PTE_INDEX PAGE_OFFSET = 0 := by decide

theorem leafEntry_eq (i : Nat) (hi : i < 131072) :
    leafEntry i = (i * PAGE_SIZE) ||| PAGE_PRESENT ||| PAGE_WRITE := by
  have e : u32 (i <<< 12) = i * PAGE_SIZE := by
    rw [u32_eq, Nat.shiftLeft_eq]
    unfold PAGE_SIZE
    omega
  unfold leafEntry
  rw [e]

theorem leafEntry_u32 (i : Nat) (hi : i < 131072) : u32 (leafEntry i) = leafEntry i := by
  have h := leafEntry_val i hi
  have e : leafEntry i = i * 4096 + 3 := by
    rw [leafEntry_eq i hi]
    exact or_present_write (i * 4096) (by omega)
  rw [h, e]

/-- C16: after `vmm_init`, for every `j < PTE_COUNT` the directory entry
`pgd_kernel[PGD_INDEX(PAGE_OFFSET) + j]` is
`((ptr_t)pte_kernel[j] - PAGE_OFFSET) | PAGE_PRESENT | PAGE_WRITE`, the
subtraction being the 32-bit one of line 34, which is the plain difference
when the row is linked at or above `PAGE_OFFSET`; every directory entry
outside that index range keeps its value, which is 0 for the zero-initialised
static tables. -/
theorem vmm_init_directory (pgdk pk : Nat) (s : VmState) :
    (∀ j, j < PTE_COUNT →
      (vmm_init pgdk pk s).pgd (PGD_INDEX PAGE_OFFSET + j) = dirEntry pk j ∧
      (PAGE_OFFSET ≤ rowAddr pk j → rowAddr pk j < WORD →
        dirEntry pk j = (rowAddr pk j - PAGE_OFFSET) ||| PAGE_PRESENT ||| PAGE_WRITE)) ∧
    (∀ k, k < PGD_INDEX PAGE_OFFSET ∨ PGD_INDEX PAGE_OFFSET + PTE_COUNT ≤ k →
      (vmm_init pgdk pk s).pgd k = s.pgd k ∧
      (zeroInit pk s → k < PGD_SIZE → (vmm_init pgdk pk s).pgd k = 0)) := by
  constructor
  · intro j hj
    constructor
    · rw [vmm_init_pgd, if_pos ⟨by omega, by omega⟩, Nat.add_sub_cancel_left, dirEntry_u32]
    · intro h1 h2
      have e : u32 (rowAddr pk j + WORD - PAGE_OFFSET) = rowAddr pk j - PAGE_OFFSET := by
        rw [u32_eq]
        unfold WORD PAGE_OFFSET at *
        omega
      unfold dirEntry
      rw [e]
  · intro k hk
    have e : (vmm_init pgdk pk s).pgd k = s.pgd k := by
      rw [vmm_init_pgd, if_neg (by omega)]
    refine ⟨e, ?_⟩
    intro hz hlt
    rw [e]
    exact hz.1 k hlt

/-- C16 witness: `vmm_init` on the fresh state, with `pte_kernel` linked at
`0xC0201000`: the first directory entry of the kernel window is `0x201003`
and the directory entry 0 stays 0. -/
theorem vmm_init_directory_witness :
    (0 : Nat) < PTE_COUNT ∧ PAGE_OFFSET ≤ rowAddr 0xC0201000 0 ∧ rowAddr 0xC0201000 0 < WORD ∧
    (vmm_init 0xC0200000 0xC0201000 fresh).pgd (PGD_INDEX PAGE_OFFSET + 0)
      = dirEntry 0xC0201000 0 ∧
    dirEntry 0xC0201000 0 = 0x201003 ∧
    (vmm_init 0xC0200000 0xC0201000 fresh).pgd 0 = 0 :=
  ⟨by decide, by decide, by decide,
    ((vmm_init_directory 0xC0200000 0xC0201000 fresh).1 0 (by decide)).1,
    (((vmm_init_directory 0xC0200000 0xC0201000 fresh).1 0 (by decide)).2
      (by decide) (by decide)).trans (by decide),
    ((vmm_init_directory 0xC0200000 0xC0201000 fresh).2 0 (Or.inl (by decide))).2
      ⟨fun _ _ => rfl, fun _ _ => rfl⟩ (by decide)⟩

/-- C17: after `vmm_init`, for every leaf slot `i` with
`1 ≤ i < PTE_COUNT * PTE_SIZE` of the flattened `pte_kernel` the leaf entry is
`(i * PAGE_SIZE) | PAGE_PRESENT | PAGE_WRITE`; the shift `i << 12` is
`i * PAGE_SIZE` and stays below `2^32`, and it has no bit in common with the
two flags, so the entry under `PAGE_MASK` is `i * PAGE_SIZE`.  Leaf slot 0
keeps its value, 0 for the zero-initialised static tables, and then
`get_mapping` on `PAGE_OFFSET`, the first page of the kernel window, returns
0 (for a page-aligned 32-bit link address of `pte_kernel`). -/
theorem vmm_init_leaves (pgdk pk : Nat) (s : VmState) :
    (∀ i, 1 ≤ i → i < PTE_COUNT * PTE_SIZE →
      (vmm_init pgdk pk s).mem (entryAddr pk i)
        = (i * PAGE_SIZE) ||| PAGE_PRESENT ||| PAGE_WRITE ∧
      i <<< 12 = i * PAGE_SIZE ∧ i * PAGE_SIZE < WORD ∧
      (i * PAGE_SIZE) &&& (PAGE_PRESENT ||| PAGE_WRITE) = 0 ∧
      (vmm_init pgdk pk s).mem (entryAddr pk i) &&& PAGE_MASK = i * PAGE_SIZE) ∧
    (vmm_init pgdk pk s).mem (entryAddr pk 0) = s.mem (entryAddr pk 0) ∧
    (zeroInit pk s → (vmm_init pgdk pk s).mem (entryAddr pk 0) = 0) ∧
    (zeroInit pk s → pk % PAGE_SIZE = 0 → pk < WORD →
      ∀ q, (get_mapping (vmm_init pgdk pk s) PAGE_OFFSET q).ret = 0) := by
  have h0 : (vmm_init pgdk pk s).mem (entryAddr pk 0) = s.mem (entryAddr pk 0) := by
    rw [vmm_init_mem, if_neg (by omega)]
  refine ⟨?_, h0, ?_, ?_⟩
  · intro i h1 h2
    have h2' : i < 131072 := h2
    have hm : (vmm_init pgdk pk s).mem (entryAddr pk i)
        = (i * PAGE_SIZE) ||| PAGE_PRESENT ||| PAGE_WRITE := by
      rw [vmm_init_mem, if_pos ⟨h1, h2⟩, leafEntry_u32 i h2', leafEntry_eq i h2']
    refine ⟨hm, ?_, ?_, ?_, ?_⟩
    · rw [Nat.shiftLeft_eq]
      rfl
    · unfold PAGE_SIZE WORD
      omega
    · rw [show PAGE_PRESENT ||| PAGE_WRITE = 2 ^ 2 - 1 by decide,
        Nat.and_pow_two_sub_one_eq_mod]
      unfold PAGE_SIZE
      omega
    · rw [vmm_init_mem, if_pos ⟨h1, h2⟩, leafEntry_val i h2', and_PAGE_MASK]
      unfold PAGE_SIZE
      omega
  · intro hz
    rw [h0]
    exact hz.2 0 (by decide)
  · intro hz hal hlt q
    have hal' : pk % 4096 = 0 := hal
    have hlt' : pk < 4294967296 := hlt
    have hdir : (vmm_init pgdk pk s).pgd (PGD_INDEX PAGE_OFFSET) &&& PAGE_MASK
        = (pk + 1073741824) % 4294967296 := by
      rw [vmm_init_pgd, if_pos ⟨Nat.le_refl _, by unfold PTE_COUNT; omega⟩, Nat.sub_self,
        dirEntry_bits]
      omega
    by_cases c : (pk + 1073741824) % 4294967296 = 0
    · rw [get_mapping_of_empty _ _ q (hdir.trans c)]
    · rw [get_mapping_of_table _ _ q _ hdir c]
      have ha : leafAddr ((pk + 1073741824) % 4294967296) PAGE_OFFSET = entryAddr pk 0 := by
        have hl : toLinear ((pk + 1073741824) % 4294967296) = pk := by
          unfold toLinear
          rw [u32_eq]
          unfold PAGE_OFFSET
          omega
        unfold leafAddr
        rw [PTE_INDEX_PAGE_OFFSET, hl]
      rw [ha, h0, hz.2 0 (by decide)]
      rw [if_neg (fun h => h.1 rfl)]

/-- C17 witness: `vmm_init` on the fresh state, with `pte_kernel` linked at
`0xC0201000`: leaf slot 1 is `0x1003` and `PAGE_OFFSET` is not mapped. -/
theorem vmm_init_leaves_witness :
    zeroInit 0xC0201000 fresh ∧ (1 : Nat) < PTE_COUNT * PTE_SIZE ∧
    (vmm_init 0xC0200000 0xC0201000 fresh).mem (entryAddr 0xC0201000 1)
      = (1 * PAGE_SIZE) ||| PAGE_PRESENT ||| PAGE_WRITE ∧
    (1 * PAGE_SIZE) ||| PAGE_PRESENT ||| PAGE_WRITE = 0x1003 ∧
    (get_mapping (vmm_init 0xC0200000 0xC0201000 fresh) PAGE_OFFSET 1).ret = 0 :=
  ⟨⟨fun _ _ => rfl, fun _ _ => rfl⟩, by decide,
    ((vmm_init_leaves 0xC0200000 0xC0201000 fresh).1 1 (by decide) (by decide)).1,
    by decide,
    (vmm_init_leaves 0xC0200000 0xC0201000 fresh).2.2.2 ⟨fun _ _ => rfl, fun _ _ => rfl⟩
      (by decide) (by decide) 1⟩

/-! ## The loops of `vmm_init` -/

theorem pgd_iters_eq (first : Nat) :
    ∀ n i j, PTE_COUNT + first - i = n →
      vmm_init_pgd_iters first i j = (List.range n).map (fun k => (i + k, j + k)) := by
  intro n
  induction n with
  | zero =>
    intro i j h
    rw [vmm_init_pgd_iters, if_neg (by omega)]
    rfl
  | succ n ih =>
    intro i j h
    rw [vmm_init_pgd_iters, if_pos (by omega), ih (i + 1) (j + 1) (by omega),
      List.range_succ_eq_map, List.map_cons, List.map_map]
    congr 1
    apply List.map_congr_left
    intro k _
    show (i + 1 + k, j + 1 + k) = (i + (k + 1), j + (k + 1))
    rw [Nat.add_assoc, Nat.add_assoc, Nat.add_comm 1 k]

theorem pte_iters_eq :
    ∀ n i, PTE_COUNT * PTE_SIZE - i = n →
      vmm_init_pte_iters i = (List.range n).map (fun k => i + k) := by
  intro n
  induction n with
  | zero =>
    intro i h
    rw [vmm_init_pte_iters, if_neg (by omega)]
    rfl
  | succ n ih =>
    intro i h
    rw [vmm_init_pte_iters, if_pos (by omega), ih (i + 1) (by omega),
      List.range_succ_eq_map, List.map_cons, List.map_map]
    congr 1
    apply List.map_congr_left
    intro k _
    show i + 1 + k = i + (k + 1)
    rw [Nat.add_assoc, Nat.add_comm 1 k]

theorem pgd_loop_fold (pk first : Nat) :
    ∀ n i j s, PTE_COUNT + first - i = n →
      vmm_init_pgd_loop pk first i j s
        = (vmm_init_pgd_iters first i j).foldl
            (fun t p => t.setPgd p.1 (dirEntry pk p.2)) s := by
  intro n
  induction n with
  | zero =>
    intro i j s h
    rw [vmm_init_pgd_loop, if_neg (by omega), vmm_init_pgd_iters, if_neg (by omega)]
    rfl
  | succ n ih =>
    intro i j s h
    rw [vmm_init_pgd_loop, if_pos (by omega), vmm_init_pgd_iters, if_pos (by omega),
      List.foldl_cons, ih (i + 1) (j + 1) _ (by omega)]

theorem pte_loop_fold (pte : Nat) :
    ∀ n i s, PTE_COUNT * PTE_SIZE - i = n →
      vmm_init_pte_loop pte i s
        = (vmm_init_pte_iters i).foldl (fun t k => t.store (entryAddr pte k) (leafEntry k)) s := by
  intro n
  induction n with
  | zero =>
    intro i s h
    rw [vmm_init_pte_loop, if_neg (by omega), vmm_init_pte_iters, if_neg (by omega)]
    rfl
  | succ n ih =>
    intro i s h
    rw [vmm_init_pte_loop, if_pos (by omega), vmm_init_pte_iters, if_pos (by omega),
      List.foldl_cons, ih (i + 1) _ (by omega)]

/-- C19: every array access of `vmm_init` is in bounds and both loops
terminate.  `vmm_init` runs the two loops from `i = PGD_INDEX(PAGE_OFFSET)`,
`j = 0` and from `i = 1`.  The first loop is the fold of its body over its runs, which are
the pairs `(PGD_INDEX(PAGE_OFFSET) + k, k)` for `k < PTE_COUNT`, so it runs
exactly `PTE_COUNT` times, every directory index written lies in
`[PGD_INDEX(PAGE_OFFSET), PGD_INDEX(PAGE_OFFSET) + PTE_COUNT)` and below
`PGD_SIZE`, and every row index `j` lies below `PTE_COUNT`.  The second loop
is the fold of its body over its runs, which are the indices `1 + k` for
`k < PTE_COUNT * PTE_SIZE - 1`, so it runs exactly `PTE_COUNT * PTE_SIZE - 1`
times and every flattened leaf index lies below `PTE_COUNT * PTE_SIZE`. -/
theorem vmm_init_in_bounds (pgdk pk : Nat) (s : VmState) :
    vmm_init pgdk pk s
      = ((vmm_init_pte_loop pk 1
            (vmm_init_pgd_loop pk (PGD_INDEX PAGE_OFFSET) (PGD_INDEX PAGE_OFFSET) 0
              s)).register_interrupt_handler INT_PAGE_FAULT).switch_pgd
          (u32 (pgdk + WORD - PAGE_OFFSET)) ∧
    vmm_init_pgd_loop pk (PGD_INDEX PAGE_OFFSET) (PGD_INDEX PAGE_OFFSET) 0 s
      = (vmm_init_pgd_iters (PGD_INDEX PAGE_OFFSET) (PGD_INDEX PAGE_OFFSET) 0).foldl
          (fun t p => t.setPgd p.1 (dirEntry pk p.2)) s ∧
    vmm_init_pgd_iters (PGD_INDEX PAGE_OFFSET) (PGD_INDEX PAGE_OFFSET) 0
      = (List.range PTE_COUNT).map (fun k => (PGD_INDEX PAGE_OFFSET + k, k)) ∧
    (vmm_init_pgd_iters (PGD_INDEX PAGE_OFFSET) (PGD_INDEX PAGE_OFFSET) 0).length
      = PTE_COUNT ∧
    (∀ p, p ∈ vmm_init_pgd_iters (PGD_INDEX PAGE_OFFSET) (PGD_INDEX PAGE_OFFSET) 0 →
      PGD_INDEX PAGE_OFFSET ≤ p.1 ∧ p.1 < PGD_INDEX PAGE_OFFSET + PTE_COUNT ∧
      p.1 < PGD_SIZE ∧ p.2 < PTE_COUNT) ∧
    vmm_init_pte_loop pk 1 s
      = (vmm_init_pte_iters 1).foldl (fun t k => t.store (entryAddr pk k) (leafEntry k)) s ∧
    vmm_init_pte_iters 1 = (List.range (PTE_COUNT * PTE_SIZE - 1)).map (fun k => 1 + k) ∧
    (vmm_init_pte_iters 1).length = PTE_COUNT * PTE_SIZE - 1 ∧
    (∀ i, i ∈ vmm_init_pte_iters 1 → 1 ≤ i ∧ i < PTE_COUNT * PTE_SIZE) := by
  have e0 := pgd_iters_eq (PGD_INDEX PAGE_OFFSET) _ (PGD_INDEX PAGE_OFFSET) 0 rfl
  rw [Nat.add_sub_cancel] at e0
  have e1 : vmm_init_pgd_iters (PGD_INDEX PAGE_OFFSET) (PGD_INDEX PAGE_OFFSET) 0
      = (List.range PTE_COUNT).map (fun k => (PGD_INDEX PAGE_OFFSET + k, k)) :=
    e0.trans (List.map_congr_left (fun k _ => by rw [Nat.zero_add]))
  have e2 := pte_iters_eq _ 1 rfl
  refine ⟨vmm_init_eq pgdk pk s, pgd_loop_fold pk _ _ _ 0 s rfl, e1, ?_, ?_,
    pte_loop_fold pk _ 1 s rfl, e2, ?_, ?_⟩
  · rw [e1, List.length_map, List.length_range]
  · intro p hp
    rw [e1, List.mem_map] at hp
    obtain ⟨k, hk, rfl⟩ := hp
    rw [List.mem_range] at hk
    have hF := PGD_INDEX_PAGE_OFFSET
    have hk' : k < 128 := hk
    show PGD_INDEX PAGE_OFFSET ≤ PGD_INDEX PAGE_OFFSET + k
      ∧ PGD_INDEX PAGE_OFFSET + k < PGD_INDEX PAGE_OFFSET + PTE_COUNT
      ∧ PGD_INDEX PAGE_OFFSET + k < PGD_SIZE ∧ k < PTE_COUNT
    unfold PGD_SIZE
    omega
  · rw [e2, List.length_map, List.length_range]
  · intro i hi
    rw [e2, List.mem_map] at hi
    obtain ⟨k, hk, rfl⟩ := hi
    rw [List.mem_range] at hk
    have hk' : k < 128 * 1024 - 1 := hk
    show 1 ≤ 1 + k ∧ 1 + k < PTE_COUNT * PTE_SIZE
    unfold PTE_COUNT PTE_SIZE
    omega

/-- C19 witness: the number of runs of the two loops, 128 and 131071. -/
theorem vmm_init_in_bounds_witness :
    (vmm_init_pgd_iters (PGD_INDEX PAGE_OFFSET) (PGD_INDEX PAGE_OFFSET) 0).length = 128 ∧
    (vmm_init_pte_iters 1).length = 131071 :=
  ⟨(vmm_init_in_bounds 0xC0200000 0xC0201000 fresh).2.2.2.1.trans (by decide),
    (vmm_init_in_bounds 0xC0200000 0xC0201000 fresh).2.2.2.2.2.2.2.1.trans (by decide)⟩

/-! ## The functions on memory and on a separate directory -/

theorem mstore_mem (m : Machine) (a v k : Nat) :
    (m.store a v).mem k = if k = a then u32 v else m.mem k := rfl

theorem mstore_pmm_calls (m : Machine) (a v : Nat) :
    (m.store a v).pmm_calls = m.pmm_calls := rfl

theorem mbzero_mem (m : Machine) (a n k : Nat) :
    (m.bzero a n).mem k = if a ≤ k ∧ k < a + n then 0 else m.mem k := rfl

theorem mbzero_pmm_calls (m : Machine) (a n : Nat) :
    (m.bzero a n).pmm_calls = m.pmm_calls := rfl

theorem dirView_pgd (m : Machine) (p i : Nat) :
    (dirView m p).pgd i = m.mem (entryAddr p i) := rfl

theorem dirView_mem (m : Machine) (p : Nat) : (dirView m p).mem = m.mem := rfl

theorem dirView_pmm_calls (m : Machine) (p : Nat) :
    (dirView m p).pmm_calls = m.pmm_calls := rfl

theorem im_get_mapping_eq (m : Machine) (p va q : Nat) :
    InMemory.get_mapping m p va q = get_mapping (dirView m p) va q := rfl

theorem im_map_of_table (frame : Nat) (m : Machine) (p va pa flags : Nat)
    (h : m.mem (entryAddr p (PGD_INDEX va)) &&& PAGE_MASK ≠ 0) :
    InMemory.map frame m p va pa flags
      = m.store (leafAddr (m.mem (entryAddr p (PGD_INDEX va)) &&& PAGE_MASK) va)
          ((pa &&& PAGE_MASK) ||| flags) := by
  unfold InMemory.map
  rw [if_neg h]
  rfl

theorem im_map_of_empty (frame : Nat) (m : Machine) (p va pa flags : Nat)
    (h : m.mem (entryAddr p (PGD_INDEX va)) &&& PAGE_MASK = 0) :
    InMemory.map frame m p va pa flags
      = ((Machine.store { m with pmm_calls := 1 :: m.pmm_calls } (entryAddr p (PGD_INDEX va))
            (u32 frame ||| PAGE_PRESENT ||| PAGE_WRITE)).bzero (toLinear (u32 frame))
            PAGE_SIZE).store
          (leafAddr (u32 frame) va) ((pa &&& PAGE_MASK) ||| flags) := by
  unfold InMemory.map
  rw [if_pos h]
  rfl

theorem im_unmap_of_empty (m : Machine) (p va : Nat)
    (h : m.mem (entryAddr p (PGD_INDEX va)) &&& PAGE_MASK = 0) :
    InMemory.unmap m p va = m := by
  unfold InMemory.unmap
  rw [if_pos h]

theorem im_unmap_of_table (m : Machine) (p va : Nat)
    (h : m.mem (entryAddr p (PGD_INDEX va)) &&& PAGE_MASK ≠ 0) :
    InMemory.unmap m p va
      = m.store (leafAddr (m.mem (entryAddr p (PGD_INDEX va)) &&& PAGE_MASK) va) 0 := by
  unfold InMemory.unmap
  rw [if_neg h]
  rfl

theorem im_map_pmm_calls (frame : Nat) (m : Machine) (p va pa flags : Nat) :
    (InMemory.map frame m p va pa flags).pmm_calls
      = if m.mem (entryAddr p (PGD_INDEX va)) &&& PAGE_MASK = 0 then 1 :: m.pmm_calls
        else m.pmm_calls := by
  by_cases c : m.mem (entryAddr p (PGD_INDEX va)) &&& PAGE_MASK = 0
  · rw [im_map_of_empty frame m p va pa flags c, if_pos c]
    rfl
  · rw [im_map_of_table frame m p va pa flags c, if_neg c, mstore_pmm_calls]

/-- A leaf entry of a table apart from the directory is no directory cell. -/
theorem leaf_not_in_dir (p t va a : Nat) (hp : p % PAGE_SIZE = 0) (ht : t % 4096 = 0)
    (hne : toLinear t ≠ p) (ha : p ≤ a ∧ a < p + PAGE_SIZE) : a ≠ leafAddr t va := by
  have hr := leafAddr_range t va ht
  have hp' : p % 4096 = 0 := hp
  have ha' : a < p + 4096 := ha.2
  intro e
  omega

theorem entryAddr_in_dir (p i : Nat) (hi : i < PGD_SIZE) :
    p ≤ entryAddr p i ∧ entryAddr p i < p + PAGE_SIZE := by
  have hi' : i < 1024 := hi
  unfold entryAddr PTE_BYTES PAGE_SIZE
  omega

theorem im_map_dir (frame : Nat) (m : Machine) (p va pa flags : Nat)
    (hp : p % PAGE_SIZE = 0)
    (hT : m.mem (entryAddr p (PGD_INDEX va)) &&& PAGE_MASK ≠ 0 →
      toLinear (m.mem (entryAddr p (PGD_INDEX va)) &&& PAGE_MASK) ≠ p)
    (hF : m.mem (entryAddr p (PGD_INDEX va)) &&& PAGE_MASK = 0 →
      frame % PAGE_SIZE = 0 ∧ frameApart frame p)
    (i : Nat) (hi : i < PGD_SIZE) :
    (InMemory.map frame m p va pa flags).mem (entryAddr p i)
      = (map frame (dirView m p) va pa flags).pgd i := by
  have hin := entryAddr_in_dir p i hi
  by_cases c : m.mem (entryAddr p (PGD_INDEX va)) &&& PAGE_MASK = 0
  · have hf := hF c
    have hal : u32 frame % 4096 = 0 := by
      have h1 : frame % 4096 = 0 := hf.1
      rw [u32_eq]
      omega
    have h1 : entryAddr p i ≠ leafAddr (u32 frame) va :=
      leaf_not_in_dir p (u32 frame) va _ hp hal hf.2 hin
    have h2 : ¬ (toLinear (u32 frame) ≤ entryAddr p i
        ∧ entryAddr p i < toLinear (u32 frame) + PAGE_SIZE) := by
      have hr := leafAddr_range (u32 frame) va hal
      have hp' : p % 4096 = 0 := hp
      have hne : toLinear (u32 frame) ≠ p := hf.2
      have hi2 : entryAddr p i < p + 4096 := hin.2
      intro h
      have h3 : entryAddr p i < toLinear (u32 frame) + 4096 := h.2
      omega
    rw [im_map_of_empty frame m p va pa flags c, mstore_mem, if_neg h1, mbzero_mem, if_neg h2,
      mstore_mem, map_pgd, dirView_pgd, dirView_pgd]
    by_cases hk : i = PGD_INDEX va
    · rw [if_pos (by rw [hk]), if_pos ⟨c, hk⟩]
    · rw [if_neg (fun e => hk (entryAddr_inj _ _ _ e)), if_neg (fun h => hk h.2)]
  · have hm := mask_aligned (m.mem (entryAddr p (PGD_INDEX va)))
    have h1 : entryAddr p i
        ≠ leafAddr (m.mem (entryAddr p (PGD_INDEX va)) &&& PAGE_MASK) va :=
      leaf_not_in_dir p _ va _ hp hm.1 (hT c) hin
    rw [im_map_of_table frame m p va pa flags c, mstore_mem, if_neg h1, map_pgd, dirView_pgd,
      if_neg (fun h => c h.1), dirView_pgd]

theorem im_map_mem (frame : Nat) (m : Machine) (p va pa flags : Nat) (a : Nat)
    (ha : ¬ (p ≤ a ∧ a < p + PAGE_SIZE)) :
    (InMemory.map frame m p va pa flags).mem a
      = (map frame (dirView m p) va pa flags).mem a := by
  by_cases c : m.mem (entryAddr p (PGD_INDEX va)) &&& PAGE_MASK = 0
  · have hd : a ≠ entryAddr p (PGD_INDEX va) :=
      fun e => ha (e ▸ entryAddr_in_dir p _ (PGD_INDEX_lt va))
    rw [im_map_of_empty frame m p va pa flags c, map_of_empty frame (dirView m p) va pa flags c,
      mstore_mem, store_mem, mbzero_mem, bzero_mem, mstore_mem, if_neg hd, setPgd_mem]
    rfl
  · rw [im_map_of_table frame m p va pa flags c, map_of_table frame (dirView m p) va pa flags c,
      mstore_mem, store_mem]
    rfl

theorem map_table_apart (frame : Nat) (m : Machine) (p va pa flags : Nat)
    (hA : dirApart m p)
    (hF : m.mem (entryAddr p (PGD_INDEX va)) &&& PAGE_MASK = 0 →
      frame % PAGE_SIZE = 0 ∧ frame < WORD ∧ frameApart frame p)
    (i : Nat) (hi : i < PGD_SIZE)
    (hne : (map frame (dirView m p) va pa flags).pgd i &&& PAGE_MASK ≠ 0) :
    toLinear ((map frame (dirView m p) va pa flags).pgd i &&& PAGE_MASK) ≠ p := by
  rw [map_pgd] at hne ⊢
  by_cases c : (dirView m p).pgd (PGD_INDEX va) &&& PAGE_MASK = 0 ∧ i = PGD_INDEX va
  · have hf := hF c.1
    have hu : u32 frame = frame := by
      have h2 : frame < 4294967296 := hf.2.1
      rw [u32_eq]
      omega
    rw [if_pos c, frame_entry frame hf.1 hf.2.1]
    have h := hf.2.2
    unfold frameApart at h
    rw [hu] at h
    exact h
  · rw [if_neg c] at hne ⊢
    exact hA.2 i hi hne

theorem im_map_get_mapping (frame : Nat) (m : Machine) (p va pa flags va' q : Nat)
    (hA : dirApart m p)
    (hF : m.mem (entryAddr p (PGD_INDEX va)) &&& PAGE_MASK = 0 →
      frame % PAGE_SIZE = 0 ∧ frame < WORD ∧ frameApart frame p) :
    InMemory.get_mapping (InMemory.map frame m p va pa flags) p va' q
      = get_mapping (map frame (dirView m p) va pa flags) va' q := by
  rw [im_get_mapping_eq]
  apply get_mapping_congr
  · rw [dirView_pgd]
    exact im_map_dir frame m p va pa flags hA.1 (hA.2 _ (PGD_INDEX_lt va))
      (fun c => ⟨(hF c).1, (hF c).2.2⟩) _ (PGD_INDEX_lt va')
  · intro hT
    have hap := map_table_apart frame m p va pa flags hA hF _ (PGD_INDEX_lt va') hT
    have hm := mask_aligned ((map frame (dirView m p) va pa flags).pgd (PGD_INDEX va'))
    rw [dirView_mem]
    apply im_map_mem
    intro hin
    exact leaf_not_in_dir p _ va' _ hA.1 hm.1 hap hin rfl

theorem zero_dirApart (p : Nat) (hp : p % PAGE_SIZE = 0) : dirApart zeroMachine p :=
  ⟨hp, fun _ _ h => absurd (Nat.zero_and _) h⟩

theorem zero_noSharing (p : Nat) : noSharing (dirView zeroMachine p) :=
  fun _ _ _ _ _ h => absurd (Nat.zero_and _) h

theorem zero_unusedFrame (p frame : Nat) (h1 : frame % PAGE_SIZE = 0) (h2 : frame < WORD) :
    unusedFrame (dirView zeroMachine p) frame :=
  ⟨h1, h2, fun _ _ h => absurd (Nat.zero_and _) h⟩

theorem im_map_dir_apart (frame : Nat) (m : Machine) (p va pa flags : Nat)
    (hA : dirApart m p)
    (hF : m.mem (entryAddr p (PGD_INDEX va)) &&& PAGE_MASK = 0 →
      frame % PAGE_SIZE = 0 ∧ frame < WORD ∧ frameApart frame p)
    (i : Nat) (hi : i < PGD_SIZE) :
    (InMemory.map frame m p va pa flags).mem (entryAddr p i)
      = (map frame (dirView m p) va pa flags).pgd i :=
  im_map_dir frame m p va pa flags hA.1 (hA.2 _ (PGD_INDEX_lt va))
    (fun c => ⟨(hF c).1, (hF c).2.2⟩) i hi

theorem im_map_dirApart (frame : Nat) (m : Machine) (p va pa flags : Nat)
    (hA : dirApart m p)
    (hF : m.mem (entryAddr p (PGD_INDEX va)) &&& PAGE_MASK = 0 →
      frame % PAGE_SIZE = 0 ∧ frame < WORD ∧ frameApart frame p) :
    dirApart (InMemory.map frame m p va pa flags) p := by
  refine ⟨hA.1, ?_⟩
  intro i hi hne
  rw [im_map_dir_apart frame m p va pa flags hA hF i hi] at hne ⊢
  exact map_table_apart frame m p va pa flags hA hF i hi hne

theorem im_map_noSharing (frame : Nat) (m : Machine) (p va pa flags : Nat)
    (hA : dirApart m p) (hns : noSharing (dirView m p))
    (hfr : unusedFrame (dirView m p) frame) (hfa : frameApart frame p) :
    noSharing (dirView (InMemory.map frame m p va pa flags) p) := by
  have hF : m.mem (entryAddr p (PGD_INDEX va)) &&& PAGE_MASK = 0 →
      frame % PAGE_SIZE = 0 ∧ frame < WORD ∧ frameApart frame p :=
    fun _ => ⟨hfr.1, hfr.2.1, hfa⟩
  intro i j hi hj hij hne
  rw [dirView_pgd, im_map_dir_apart frame m p va pa flags hA hF i hi] at hne ⊢
  rw [dirView_pgd, im_map_dir_apart frame m p va pa flags hA hF j hj]
  exact map_noSharing frame (dirView m p) va pa flags hns hfr i j hi hj hij hne

theorem im_unmap_mem (m : Machine) (p va a : Nat) :
    (InMemory.unmap m p va).mem a
      = if m.mem (entryAddr p (PGD_INDEX va)) &&& PAGE_MASK ≠ 0
          ∧ a = leafAddr (m.mem (entryAddr p (PGD_INDEX va)) &&& PAGE_MASK) va
        then 0 else m.mem a := by
  by_cases c : m.mem (entryAddr p (PGD_INDEX va)) &&& PAGE_MASK = 0
  · rw [im_unmap_of_empty m p va c, if_neg (fun h => h.1 c)]
  · rw [im_unmap_of_table m p va c, mstore_mem]
    by_cases e : a = leafAddr (m.mem (entryAddr p (PGD_INDEX va)) &&& PAGE_MASK) va
    · rw [if_pos e, if_pos ⟨c, e⟩]
      rfl
    · rw [if_neg e, if_neg (fun h => e h.2)]

theorem im_unmap_pmm_calls (m : Machine) (p va : Nat) :
    (InMemory.unmap m p va).pmm_calls = m.pmm_calls := by
  by_cases c : m.mem (entryAddr p (PGD_INDEX va)) &&& PAGE_MASK = 0
  · rw [im_unmap_of_empty m p va c]
  · rw [im_unmap_of_table m p va c, mstore_pmm_calls]

theorem im_unmap_dir (m : Machine) (p va : Nat) (hp : p % PAGE_SIZE = 0)
    (hT : m.mem (entryAddr p (PGD_INDEX va)) &&& PAGE_MASK ≠ 0 →
      toLinear (m.mem (entryAddr p (PGD_INDEX va)) &&& PAGE_MASK) ≠ p)
    (i : Nat) (hi : i < PGD_SIZE) :
    (InMemory.unmap m p va).mem (entryAddr p i) = m.mem (entryAddr p i) := by
  rw [im_unmap_mem]
  have hm := mask_aligned (m.mem (entryAddr p (PGD_INDEX va)))
  rw [if_neg (fun h => leaf_not_in_dir p _ va _ hp hm.1 (hT h.1) (entryAddr_in_dir p i hi) h.2)]

theorem im_unmap_other_page (m : Machine) (p va va' q : Nat)
    (hA : dirApart m p) (hns : noSharing (dirView m p)) (hp : otherPage va va') :
    InMemory.get_mapping (InMemory.unmap m p va) p va' q = InMemory.get_mapping m p va' q := by
  have hpte : PGD_INDEX va' = PGD_INDEX va → PTE_INDEX va' ≠ PTE_INDEX va := by
    intro h
    rcases hp with h1 | h1
    · exact absurd h h1
    · exact h1
  rw [im_get_mapping_eq, im_get_mapping_eq]
  apply get_mapping_congr
  · rw [dirView_pgd, dirView_pgd]
    exact im_unmap_dir m p va hA.1 (hA.2 _ (PGD_INDEX_lt va)) _ (PGD_INDEX_lt va')
  · intro hT
    have hm := mask_aligned (m.mem (entryAddr p (PGD_INDEX va)))
    have h1 : leafAddr ((dirView m p).pgd (PGD_INDEX va') &&& PAGE_MASK) va'
        ≠ leafAddr ((dirView m p).pgd (PGD_INDEX va) &&& PAGE_MASK) va :=
      leafAddr_ne (dirView m p) va va' _ hm.1 hm.2 hpte
        (fun hi => hns (PGD_INDEX va') (PGD_INDEX va) (PGD_INDEX_lt va') (PGD_INDEX_lt va) hi hT)
    rw [dirView_mem, dirView_mem, im_unmap_mem, if_neg (fun h => h1 h.2)]

theorem oneTable_frame :
    zeroMachine.mem (entryAddr 0xC0200000 (PGD_INDEX 0x801000)) &&& PAGE_MASK = 0 →
      0x300000 % PAGE_SIZE = 0 ∧ 0x300000 < WORD ∧ frameApart 0x300000 0xC0200000 :=
  fun _ => ⟨by decide, by decide, by unfold frameApart; decide⟩

theorem oneTable_dirApart : dirApart oneTable 0xC0200000 :=
  im_map_dirApart 0x300000 zeroMachine 0xC0200000 0x801000 0x100000 3
    (zero_dirApart _ (by decide)) oneTable_frame

theorem oneTable_noSharing : noSharing (dirView oneTable 0xC0200000) :=
  im_map_noSharing 0x300000 zeroMachine 0xC0200000 0x801000 0x100000 3
    (zero_dirApart _ (by decide)) (zero_noSharing _)
    (zero_unusedFrame _ _ (by decide) (by decide)) (by unfold frameApart; decide)

theorem oneTable_unusedFrame (frame : Nat) (h1 : frame % PAGE_SIZE = 0) (h2 : frame < WORD)
    (h3 : frame ≠ 0x300000) : unusedFrame (dirView oneTable 0xC0200000) frame := by
  refine ⟨h1, h2, ?_⟩
  intro j hj hne
  have e : (dirView oneTable 0xC0200000).pgd j
      = (map 0x300000 (dirView zeroMachine 0xC0200000) 0x801000 0x100000 3).pgd j :=
    im_map_dir_apart 0x300000 zeroMachine 0xC0200000 0x801000 0x100000 3
      (zero_dirApart _ (by decide)) oneTable_frame j hj
  rw [e, map_pgd] at hne ⊢
  by_cases c : (dirView zeroMachine 0xC0200000).pgd (PGD_INDEX 0x801000) &&& PAGE_MASK = 0
      ∧ j = PGD_INDEX 0x801000
  · rw [if_pos c, frame_entry 0x300000 (by decide) (by decide)]
    exact fun e => h3 e.symm
  · rw [if_neg c] at hne
    exact absurd (Nat.zero_and _) hne

/-! ## Claims about other translations, with the directory in memory -/

/-- C18, as amended: when the directory lies in a page of its own (it is
page-aligned and no directory entry holds the directory's page as its table),
the space has no shared table, and the frame the allocator hands out is
page-aligned, is not already the table of a directory entry and is not the
page of the directory, every address `v'` in another page than `v` gets from
`get_mapping` after `map(space, v, p, flags)` exactly what it got before, for
every `pa` argument. -/
theorem map_other_translations (frame : Nat) (m : Machine) (p va pa flags va' q : Nat)
    (hA : dirApart m p) (hns : noSharing (dirView m p))
    (hfr : unusedFrame (dirView m p) frame) (hfa : frameApart frame p)
    (hp : otherPage va va') :
    InMemory.get_mapping (InMemory.map frame m p va pa flags) p va' q
      = InMemory.get_mapping m p va' q := by
  rw [im_map_get_mapping frame m p va pa flags va' q hA (fun _ => ⟨hfr.1, hfr.2.1, hfa⟩),
    map_other_page frame (dirView m p) va pa flags va' q hns hfr hp]
  rfl

/-- C18 witness: in `oneTable`, `map` of `0x00C01000`, which installs a new
table in the frame `0x400000`, leaves `0x00801000` mapped to `0x00100000`. -/
theorem map_other_translations_witness :
    dirApart oneTable 0xC0200000 ∧ noSharing (dirView oneTable 0xC0200000) ∧
    unusedFrame (dirView oneTable 0xC0200000) 0x400000 ∧ frameApart 0x400000 0xC0200000 ∧
    otherPage 0xC01000 0x801000 ∧
    InMemory.get_mapping (InMemory.map 0x400000 oneTable 0xC0200000 0xC01000 0x500000 3)
        0xC0200000 0x801000 1
      = InMemory.get_mapping oneTable 0xC0200000 0x801000 1 ∧
    InMemory.get_mapping oneTable 0xC0200000 0x801000 1 = { ret := 1, pa := 0x100000 } :=
  have hu : unusedFrame (dirView oneTable 0xC0200000) 0x400000 :=
    oneTable_unusedFrame 0x400000 (by decide) (by decide) (by decide)
  have hfa : frameApart 0x400000 0xC0200000 := by unfold frameApart; decide
  have hp : otherPage 0xC01000 0x801000 := Or.inl (by decide)
  ⟨oneTable_dirApart, oneTable_noSharing, hu, hfa, hp,
    map_other_translations 0x400000 oneTable 0xC0200000 0xC01000 0x500000 3 0x801000 1
      oneTable_dirApart oneTable_noSharing hu hfa hp,
    by decide⟩

/-- C18 counterexample: `oneTable` has no shared table, and the frame
`0x200000` is page-aligned and not the table of any directory entry: it is the
page of the directory itself.  `map` of `0x00C01000` with that frame zero-fills
the directory, so `0x00801000`, an address of another page, is mapped to
`0x00100000` before the call and not mapped after it. -/
theorem map_other_translations_counterexample :
    noSharing (dirView oneTable 0xC0200000) ∧
    unusedFrame (dirView oneTable 0xC0200000) 0x200000 ∧
    PGD_INDEX 0x801000 ≠ PGD_INDEX 0xC01000 ∧
    InMemory.get_mapping oneTable 0xC0200000 0x801000 1 = { ret := 1, pa := 0x100000 } ∧
    InMemory.get_mapping (InMemory.map 0x200000 oneTable 0xC0200000 0xC01000 0x500000 3)
        0xC0200000 0x801000 1 = { ret := 0, pa := 1 } :=
  ⟨oneTable_noSharing, oneTable_unusedFrame 0x200000 (by decide) (by decide) (by decide),
    by decide, by decide, by decide⟩

/-- C15, as amended: `unmap(space, v)` makes no allocator call and leaves
every memory word other than the leaf entry of `v` unchanged.  When the table
of `v` is not the page of the directory, every directory entry is unchanged
(the table is not reclaimed); and when the directory lies in a page of its
own and the space has no shared table, every address `v'` in another page
than `v` gets from `get_mapping` exactly what it got before. -/
theorem unmap_one_leaf (m : Machine) (p va : Nat) :
    (InMemory.unmap m p va).pmm_calls = m.pmm_calls ∧
    (∀ a, a ≠ leafAddr (m.mem (entryAddr p (PGD_INDEX va)) &&& PAGE_MASK) va →
      (InMemory.unmap m p va).mem a = m.mem a) ∧
    (p % PAGE_SIZE = 0 →
      (m.mem (entryAddr p (PGD_INDEX va)) &&& PAGE_MASK ≠ 0 →
        toLinear (m.mem (entryAddr p (PGD_INDEX va)) &&& PAGE_MASK) ≠ p) →
      ∀ i, i < PGD_SIZE →
        (InMemory.unmap m p va).mem (entryAddr p i) = m.mem (entryAddr p i)) ∧
    (dirApart m p → noSharing (dirView m p) → ∀ va' q, otherPage va va' →
      InMemory.get_mapping (InMemory.unmap m p va) p va' q
        = InMemory.get_mapping m p va' q) := by
  refine ⟨im_unmap_pmm_calls m p va, ?_, ?_, ?_⟩
  · intro a ha
    rw [im_unmap_mem, if_neg (fun h => ha h.2)]
  · intro hp hT i hi
    exact im_unmap_dir m p va hp hT i hi
  · intro hA hns va' q hp
    exact im_unmap_other_page m p va va' q hA hns hp

/-- C15 witness: in `oneTable`, `unmap` of `0x00802000`, a page under the same
table as `0x00801000`, leaves the directory entry 2 in place and leaves
`0x00801000` mapped to `0x00100000`. -/
theorem unmap_one_leaf_witness :
    dirApart oneTable 0xC0200000 ∧ noSharing (dirView oneTable 0xC0200000) ∧
    otherPage 0x802000 0x801000 ∧
    (InMemory.unmap oneTable 0xC0200000 0x802000).mem (entryAddr 0xC0200000 2)
      = oneTable.mem (entryAddr 0xC0200000 2) ∧
    oneTable.mem (entryAddr 0xC0200000 2) = 0x300003 ∧
    InMemory.get_mapping (InMemory.unmap oneTable 0xC0200000 0x802000) 0xC0200000 0x801000 1
      = InMemory.get_mapping oneTable 0xC0200000 0x801000 1 ∧
    InMemory.get_mapping oneTable 0xC0200000 0x801000 1 = { ret := 1, pa := 0x100000 } :=
  have hp : otherPage 0x802000 0x801000 := Or.inr (by decide)
  ⟨oneTable_dirApart, oneTable_noSharing, hp,
    (unmap_one_leaf oneTable 0xC0200000 0x802000).2.2.1 oneTable_dirApart.1
      (oneTable_dirApart.2 _ (PGD_INDEX_lt 0x802000)) 2 (by decide),
    by decide,
    (unmap_one_leaf oneTable 0xC0200000 0x802000).2.2.2 oneTable_dirApart oneTable_noSharing
      0x801000 1 hp,
    by decide⟩

/-- C15 counterexample: in `selfMapped` the directory entry 1 holds the page of
the directory, so the table of `0x00402000` is the directory and its leaf
entry 2 is the directory entry 2.  `unmap` of `0x00402000` clears that
directory entry, from `0x300003` to 0, and `0x00801000`, an address of another
page, is mapped before the call and not mapped after it. -/
theorem unmap_one_leaf_counterexample :
    selfMapped.mem (entryAddr 0xC0200000 2) = 0x300003 ∧
    (InMemory.unmap selfMapped 0xC0200000 0x402000).mem (entryAddr 0xC0200000 2) = 0 ∧
    PGD_INDEX 0x801000 ≠ PGD_INDEX 0x402000 ∧
    InMemory.get_mapping selfMapped 0xC0200000 0x801000 1 = { ret := 1, pa := 0x100000 } ∧
    InMemory.get_mapping (InMemory.unmap selfMapped 0xC0200000 0x402000) 0xC0200000 0x801000 1
      = { ret := 0, pa := 1 } := by
  decide

/-- C14, as amended: `map` calls `pmm_alloc` if and only if the directory
entry of `v` holds no table before the call (its bits under `PAGE_MASK` are
all zero), and then exactly once, with count 1.  When the entry holds a table,
`map` makes no call and changes no memory word but the leaf entry of `v`, so
the existing table is not zero-filled; and when that table is not the page of
the directory, every directory entry is unchanged. -/
theorem map_lazy_alloc (frame : Nat) (m : Machine) (p va pa flags : Nat) :
    ((InMemory.map frame m p va pa flags).pmm_calls = 1 :: m.pmm_calls
      ↔ m.mem (entryAddr p (PGD_INDEX va)) &&& PAGE_MASK = 0) ∧
    ((InMemory.map frame m p va pa flags).pmm_calls = m.pmm_calls
      ↔ m.mem (entryAddr p (PGD_INDEX va)) &&& PAGE_MASK ≠ 0) ∧
    (m.mem (entryAddr p (PGD_INDEX va)) &&& PAGE_MASK ≠ 0 →
      ∀ a, a ≠ leafAddr (m.mem (entryAddr p (PGD_INDEX va)) &&& PAGE_MASK) va →
        (InMemory.map frame m p va pa flags).mem a = m.mem a) ∧
    (m.mem (entryAddr p (PGD_INDEX va)) &&& PAGE_MASK ≠ 0 → p % PAGE_SIZE = 0 →
      toLinear (m.mem (entryAddr p (PGD_INDEX va)) &&& PAGE_MASK) ≠ p →
      ∀ i, i < PGD_SIZE →
        (InMemory.map frame m p va pa flags).mem (entryAddr p i) = m.mem (entryAddr p i)) := by
  have hne : (1 :: m.pmm_calls) ≠ m.pmm_calls := by
    intro e
    have h := congrArg List.length e
    rw [List.length_cons] at h
    omega
  have hmem : m.mem (entryAddr p (PGD_INDEX va)) &&& PAGE_MASK ≠ 0 →
      ∀ a, a ≠ leafAddr (m.mem (entryAddr p (PGD_INDEX va)) &&& PAGE_MASK) va →
        (InMemory.map frame m p va pa flags).mem a = m.mem a := by
    intro c a ha
    rw [im_map_of_table frame m p va pa flags c, mstore_mem, if_neg ha]
  refine ⟨?_, ?_, hmem, ?_⟩
  · rw [im_map_pmm_calls]
    by_cases c : m.mem (entryAddr p (PGD_INDEX va)) &&& PAGE_MASK = 0
    · rw [if_pos c]
      exact ⟨fun _ => c, fun _ => rfl⟩
    · rw [if_neg c]
      exact ⟨fun e => absurd e.symm hne, fun e => absurd e c⟩
  · rw [im_map_pmm_calls]
    by_cases c : m.mem (entryAddr p (PGD_INDEX va)) &&& PAGE_MASK = 0
    · rw [if_pos c]
      exact ⟨fun e => absurd e hne, fun e => absurd c e⟩
    · rw [if_neg c]
      exact ⟨fun _ => c, fun _ => rfl⟩
  · intro c hp hT i hi
    have hm := mask_aligned (m.mem (entryAddr p (PGD_INDEX va)))
    exact hmem c _ (leaf_not_in_dir p _ va _ hp hm.1 hT (entryAddr_in_dir p i hi))

/-- C14 witness: `map` of `0x00801000` on the zero machine calls `pmm_alloc(1)`
once; a further `map`, of `0x00802000` under the same directory entry, makes
no call and leaves the directory entry 2 in place. -/
theorem map_lazy_alloc_witness :
    zeroMachine.mem (entryAddr 0xC0200000 (PGD_INDEX 0x801000)) &&& PAGE_MASK = 0 ∧
    oneTable.pmm_calls = 1 :: zeroMachine.pmm_calls ∧
    oneTable.mem (entryAddr 0xC0200000 (PGD_INDEX 0x802000)) &&& PAGE_MASK ≠ 0 ∧
    (InMemory.map 0x400000 oneTable 0xC0200000 0x802000 0x500000 3).pmm_calls
      = oneTable.pmm_calls ∧
    (InMemory.map 0x400000 oneTable 0xC0200000 0x802000 0x500000 3).mem (entryAddr 0xC0200000 2)
      = oneTable.mem (entryAddr 0xC0200000 2) :=
  ⟨by decide,
    (map_lazy_alloc 0x300000 zeroMachine 0xC0200000 0x801000 0x100000 3).1.2 (by decide),
    by decide,
    (map_lazy_alloc 0x400000 oneTable 0xC0200000 0x802000 0x500000 3).2.1.2 (by decide),
    (map_lazy_alloc 0x400000 oneTable 0xC0200000 0x802000 0x500000 3).2.2.2 (by decide)
      (by decide) (by decide) 2 (by decide)⟩

/-- C14 counterexample: in `selfMapped` the directory entry of `0x00403000`
holds a table, the page of the directory itself.  `map` of `0x00403000` makes
no `pmm_alloc` call and writes its leaf entry 3, which is the directory entry
3: the directory is changed, from 0 to `0x500003`. -/
theorem map_lazy_alloc_counterexample :
    selfMapped.mem (entryAddr 0xC0200000 (PGD_INDEX 0x403000)) &&& PAGE_MASK ≠ 0 ∧
    (InMemory.map 0x1000 selfMapped 0xC0200000 0x403000 0x500000 3).pmm_calls
      = selfMapped.pmm_calls ∧
    selfMapped.mem (entryAddr 0xC0200000 3) = 0 ∧
    (InMemory.map 0x1000 selfMapped 0xC0200000 0x403000 0x500000 3).mem (entryAddr 0xC0200000 3)
      = 0x500003 := by
  decide

theorem im_unmap_nullUnmapped (m : Machine) (p va : Nat)
    (hinv : nullUnmapped (dirView m p)) :
    nullUnmapped (dirView (InMemory.unmap m p va) p) := by
  intro q
  rcases get_mapping_ret_cases (dirView (InMemory.unmap m p va) p) 0 q with h | h
  · exfalso
    rw [get_mapping_ret_iff] at h
    obtain ⟨h1, h2, h3⟩ := h
    have e0 : (dirView (InMemory.unmap m p va) p).pgd (PGD_INDEX 0)
        = (dirView m p).pgd (PGD_INDEX 0) := by
      rw [dirView_pgd, dirView_pgd, im_unmap_mem]
      by_cases c : m.mem (entryAddr p (PGD_INDEX va)) &&& PAGE_MASK ≠ 0
          ∧ entryAddr p (PGD_INDEX 0)
            = leafAddr (m.mem (entryAddr p (PGD_INDEX va)) &&& PAGE_MASK) va
      · exfalso
        rw [dirView_pgd, im_unmap_mem, if_pos c] at h1
        exact h1 (Nat.zero_and _)
      · rw [if_neg c]
    rw [e0] at h1 h2
    have h4 : (dirView m p).mem (leafAddr ((dirView m p).pgd (PGD_INDEX 0) &&& PAGE_MASK) 0)
        ≠ 0 := by
      intro e
      rw [dirView_mem, im_unmap_mem] at h2
      by_cases c : m.mem (entryAddr p (PGD_INDEX va)) &&& PAGE_MASK ≠ 0
          ∧ leafAddr ((dirView m p).pgd (PGD_INDEX 0) &&& PAGE_MASK) 0
            = leafAddr (m.mem (entryAddr p (PGD_INDEX va)) &&& PAGE_MASK) va
      · rw [if_pos c] at h2
        exact h2 rfl
      · rw [if_neg c] at h2
        exact h2 e
    have h5 : (get_mapping (dirView m p) 0 q).ret = 1 :=
      (get_mapping_ret_iff (dirView m p) 0 q).2 ⟨h1, h4, h3⟩
    rw [hinv q] at h5
    exact Nat.zero_ne_one h5
  · exact h

theorem oneTable_nullUnmapped : nullUnmapped (dirView oneTable 0xC0200000) :=
  fun q => congrArg GetMapping.ret
    (get_mapping_of_empty (dirView oneTable 0xC0200000) 0 q (by decide))

/-- C12, as amended: "`get_mapping` on virtual address 0 returns 0" holds
after `vmm_init` on the zero-initialised static tables and is preserved by
every `unmap` call.  It is preserved by `map(space, v, p, flags)` when `v`
does not lie in page 0, the directory lies in a page of its own, the space
has no shared table and the allocator hands out a page-aligned frame that is
neither the table of a directory entry nor the page of the directory; `map`
on an address of page 0 is not refused. -/
theorem null_unmapped_invariant (pgdk pk frame : Nat) (s : VmState) (m : Machine)
    (p va pa flags : Nat) :
    (zeroInit pk s → nullUnmapped (vmm_init pgdk pk s)) ∧
    (nullUnmapped (dirView m p) → nullUnmapped (dirView (InMemory.unmap m p va) p)) ∧
    (dirApart m p → nullUnmapped (dirView m p) → noSharing (dirView m p) →
      unusedFrame (dirView m p) frame → frameApart frame p →
      (PGD_INDEX va ≠ 0 ∨ PTE_INDEX va ≠ 0) →
      nullUnmapped (dirView (InMemory.map frame m p va pa flags) p)) := by
  refine ⟨?_, im_unmap_nullUnmapped m p va, ?_⟩
  · intro hz q
    rw [get_mapping_of_empty _ 0 q (vmm_init_pgd_zero pgdk pk s hz)]
  · intro hA hinv hns hfr hfa hv q
    have hp : otherPage va 0 := by
      have h0 : PGD_INDEX 0 = 0 := by decide
      have h1 : PTE_INDEX 0 = 0 := by decide
      unfold otherPage
      rw [h0, h1]
      rcases hv with h | h
      · exact Or.inl (fun e => h e.symm)
      · exact Or.inr (fun e => h e.symm)
    have e : get_mapping (dirView (InMemory.map frame m p va pa flags) p) 0 q
        = get_mapping (map frame (dirView m p) va pa flags) 0 q :=
      im_map_get_mapping frame m p va pa flags 0 q hA (fun _ => ⟨hfr.1, hfr.2.1, hfa⟩)
    rw [e, map_other_page frame (dirView m p) va pa flags 0 q hns hfr hp]
    exact hinv q

/-- C12 witness: `vmm_init` on the fresh state, and, in `oneTable`, whose
directory holds one table, `unmap` of the mapped page `0x00801000` and `map`
of `0x00C01000`, an address outside page 0, with the new frame `0x400000`. -/
theorem null_unmapped_invariant_witness :
    zeroInit 0xC0201000 fresh ∧ dirApart oneTable 0xC0200000 ∧
    nullUnmapped (dirView oneTable 0xC0200000) ∧ noSharing (dirView oneTable 0xC0200000) ∧
    unusedFrame (dirView oneTable 0xC0200000) 0x400000 ∧ frameApart 0x400000 0xC0200000 ∧
    (PGD_INDEX 0xC01000 ≠ 0 ∨ PTE_INDEX 0xC01000 ≠ 0) ∧
    nullUnmapped (vmm_init 0xC0200000 0xC0201000 fresh) ∧
    nullUnmapped (dirView (InMemory.unmap oneTable 0xC0200000 0x801000) 0xC0200000) ∧
    nullUnmapped (dirView (InMemory.map 0x400000 oneTable 0xC0200000 0xC01000 0x500000 3)
      0xC0200000) :=
  have hz : zeroInit 0xC0201000 fresh := ⟨fun _ _ => rfl, fun _ _ => rfl⟩
  have hu : unusedFrame (dirView oneTable 0xC0200000) 0x400000 :=
    oneTable_unusedFrame 0x400000 (by decide) (by decide) (by decide)
  have hfa : frameApart 0x400000 0xC0200000 := by unfold frameApart; decide
  have hv : PGD_INDEX 0xC01000 ≠ 0 ∨ PTE_INDEX 0xC01000 ≠ 0 := Or.inl (by decide)
  ⟨hz, oneTable_dirApart, oneTable_nullUnmapped, oneTable_noSharing, hu, hfa, hv,
    (null_unmapped_invariant 0xC0200000 0xC0201000 0x400000 fresh oneTable 0xC0200000 0x801000
      0x500000 3).1 hz,
    (null_unmapped_invariant 0xC0200000 0xC0201000 0x400000 fresh oneTable 0xC0200000 0x801000
      0x500000 3).2.1 oneTable_nullUnmapped,
    (null_unmapped_invariant 0xC0200000 0xC0201000 0x400000 fresh oneTable 0xC0200000 0xC01000
      0x500000 3).2.2 oneTable_dirApart oneTable_nullUnmapped oneTable_noSharing hu hfa hv⟩

theorem table_cell_not_in_dir (p t k : Nat) (hp : p % PAGE_SIZE = 0) (ht : t % 4096 = 0)
    (hne : toLinear t ≠ p) (hk : k < PTE_SIZE) :
    ¬ (p ≤ entryAddr (toLinear t) k ∧ entryAddr (toLinear t) k < p + PAGE_SIZE) := by
  have hr := (leafAddr_range t 0 ht).2.2
  have hp' : p % 4096 = 0 := hp
  have hk' : k < 1024 := hk
  intro h
  have h2 : entryAddr (toLinear t) k < p + 4096 := h.2
  have h1 := h.1
  unfold entryAddr PTE_BYTES at h1 h2
  omega

theorem im_map_same_dir (frame : Nat) (m : Machine) (p va pa flags va' q : Nat)
    (hempty : m.mem (entryAddr p (PGD_INDEX va)) &&& PAGE_MASK = 0) (hg : goodFrame frame)
    (hp : p % PAGE_SIZE = 0) (hfa : frameApart frame p)
    (hi : PGD_INDEX va' = PGD_INDEX va) :
    InMemory.get_mapping (InMemory.map frame m p va pa flags) p va' q
      = get_mapping (map frame (dirView m p) va pa flags) va' q := by
  have hg' := (goodFrame_iff frame).1 hg
  have hu : u32 frame = frame := by rw [u32_eq]; omega
  have hne : toLinear frame ≠ p := by
    have h := hfa
    unfold frameApart at h
    rw [hu] at h
    exact h
  have ht : (map frame (dirView m p) va pa flags).pgd (PGD_INDEX va') &&& PAGE_MASK = frame := by
    rw [hi, map_pgd_table frame (dirView m p) va pa flags (fun _ => hg)]
    unfold tableOf
    have he : (dirView m p).pgd (PGD_INDEX va) &&& PAGE_MASK = 0 := hempty
    rw [if_pos he, hu]
  rw [im_get_mapping_eq]
  apply get_mapping_congr
  · rw [dirView_pgd]
    exact im_map_dir frame m p va pa flags hp (fun c => absurd hempty c)
      (fun _ => ⟨hg'.1, hfa⟩) _ (PGD_INDEX_lt va')
  · intro _
    rw [ht, dirView_mem]
    exact im_map_mem frame m p va pa flags _
      (table_cell_not_in_dir p frame _ hp hg'.1 hne (PTE_INDEX_lt va'))

/-! ## Claims about a new table, with the directory in memory -/

/-- C5, as amended: when the directory entry of `v` is empty, the directory
is page-aligned and the frame allocator hands out a non-null page-aligned
frame that is not the page of the directory, `map(space, v, p, flags)` makes
exactly one `pmm_alloc` call, with count 1, stores the frame address with the
present and writable flags in the directory entry of `v`, leaves every other
directory entry unchanged, and leaves the new table zero except for the leaf
entry of `v`, which holds `(p & PAGE_MASK) | flags`.  Afterwards every address
of another page under the directory entry of `v` is reported "not mapped";
when the leaf value is not zero, `get_mapping` on `v` with a non-null `pa`
argument returns 1 and, for `flags` with sub-page bits only, the address it
computes is `p & PAGE_MASK`. -/
theorem map_new_table_in_memory (frame : Nat) (m : Machine) (p va pa flags : Nat)
    (hempty : m.mem (entryAddr p (PGD_INDEX va)) &&& PAGE_MASK = 0) (hg : goodFrame frame)
    (hp : p % PAGE_SIZE = 0) (hfa : frameApart frame p) :
    (InMemory.map frame m p va pa flags).pmm_calls = 1 :: m.pmm_calls ∧
    (InMemory.map frame m p va pa flags).mem (entryAddr p (PGD_INDEX va))
      = frame ||| PAGE_PRESENT ||| PAGE_WRITE ∧
    (∀ i, i < PGD_SIZE → i ≠ PGD_INDEX va →
      (InMemory.map frame m p va pa flags).mem (entryAddr p i) = m.mem (entryAddr p i)) ∧
    (InMemory.map frame m p va pa flags).mem (entryAddr (toLinear frame) (PTE_INDEX va))
      = u32 ((pa &&& PAGE_MASK) ||| flags) ∧
    (∀ k, k < PTE_SIZE → k ≠ PTE_INDEX va →
      (InMemory.map frame m p va pa flags).mem (entryAddr (toLinear frame) k) = 0) ∧
    (∀ va' q, PGD_INDEX va' = PGD_INDEX va → PTE_INDEX va' ≠ PTE_INDEX va →
      (InMemory.get_mapping (InMemory.map frame m p va pa flags) p va' q).ret = 0) ∧
    (∀ q, u32 ((pa &&& PAGE_MASK) ||| flags) ≠ 0 → q ≠ 0 →
      (InMemory.get_mapping (InMemory.map frame m p va pa flags) p va q).ret = 1 ∧
      (flags < PAGE_SIZE →
        (InMemory.get_mapping (InMemory.map frame m p va pa flags) p va q).pa
          = pa &&& PAGE_MASK)) := by
  have hg' := (goodFrame_iff frame).1 hg
  have hu : u32 frame = frame := by rw [u32_eq]; omega
  have hne : toLinear frame ≠ p := by
    have h := hfa
    unfold frameApart at h
    rw [hu] at h
    exact h
  have old := split_map_new_table frame (dirView m p) va pa flags hempty hg
  have hdir : ∀ i, i < PGD_SIZE → (InMemory.map frame m p va pa flags).mem (entryAddr p i)
      = (map frame (dirView m p) va pa flags).pgd i :=
    fun i hi => im_map_dir frame m p va pa flags hp (fun c => absurd hempty c)
      (fun _ => ⟨hg'.1, hfa⟩) i hi
  have hcell : ∀ k, k < PTE_SIZE →
      (InMemory.map frame m p va pa flags).mem (entryAddr (toLinear frame) k)
        = (map frame (dirView m p) va pa flags).mem (entryAddr (toLinear frame) k) :=
    fun k hk => im_map_mem frame m p va pa flags _
      (table_cell_not_in_dir p frame k hp hg'.1 hne hk)
  refine ⟨?_, ?_, ?_, ?_, ?_, ?_, ?_⟩
  · rw [im_map_pmm_calls, if_pos hempty]
  · rw [hdir _ (PGD_INDEX_lt va)]
    exact old.2.1
  · intro i hi hne'
    rw [hdir i hi]
    exact old.2.2.1 i hne'
  · rw [hcell _ (PTE_INDEX_lt va)]
    exact old.2.2.2.1
  · intro k hk hkne
    rw [hcell k hk]
    exact old.2.2.2.2.1 k hk hkne
  · intro va' q h1 h2
    rw [im_map_same_dir frame m p va pa flags va' q hempty hg hp hfa h1]
    exact old.2.2.2.2.2.1 va' q h1 h2
  · intro q hleaf hq
    rw [im_map_same_dir frame m p va pa flags va q hempty hg hp hfa rfl]
    exact old.2.2.2.2.2.2 q hleaf hq

/-- C5 witness: `map(space, 0x00401000, 0x00100000, present|writable)` on the
zero machine, with the directory at `0xC0200000` and the frame `0x300000`
from the allocator; `get_mapping` then returns 1 and computes `0x00100000`. -/
theorem map_new_table_in_memory_witness :
    zeroMachine.mem (entryAddr 0xC0200000 (PGD_INDEX 0x401000)) &&& PAGE_MASK = 0 ∧
    goodFrame 0x300000 ∧ 0xC0200000 % PAGE_SIZE = 0 ∧ frameApart 0x300000 0xC0200000 ∧
    (InMemory.map 0x300000 zeroMachine 0xC0200000 0x401000 0x100000
      (PAGE_PRESENT ||| PAGE_WRITE)).pmm_calls = 1 :: zeroMachine.pmm_calls ∧
    (InMemory.map 0x300000 zeroMachine 0xC0200000 0x401000 0x100000
      (PAGE_PRESENT ||| PAGE_WRITE)).mem (entryAddr 0xC0200000 (PGD_INDEX 0x401000))
      = 0x300000 ||| PAGE_PRESENT ||| PAGE_WRITE ∧
    InMemory.get_mapping (InMemory.map 0x300000 zeroMachine 0xC0200000 0x401000 0x100000
      (PAGE_PRESENT ||| PAGE_WRITE)) 0xC0200000 0x401000 1 = { ret := 1, pa := 0x100000 } :=
  ⟨by decide, by unfold goodFrame; decide, by decide, by unfold frameApart; decide,
    (map_new_table_in_memory 0x300000 zeroMachine 0xC0200000 0x401000 0x100000
      (PAGE_PRESENT ||| PAGE_WRITE) (by decide) (by unfold goodFrame; decide) (by decide)
      (by unfold frameApart; decide)).1,
    (map_new_table_in_memory 0x300000 zeroMachine 0xC0200000 0x401000 0x100000
      (PAGE_PRESENT ||| PAGE_WRITE) (by decide) (by unfold goodFrame; decide) (by decide)
      (by unfold frameApart; decide)).2.1,
    by decide⟩

/-- C5 counterexample: on the zero machine, whose directory entry of
`0x00401000` is empty, `map(space, 0x00401000, 0, 0)` writes the empty leaf
value and `get_mapping` then reports "not mapped" instead of yielding 0; and
`map(space, 0x00401000, 0x00100800, 3)` keeps the page-aligned bits only, so
`get_mapping` then computes `0x00100000`, not `0x00100800`. -/
theorem map_new_table_in_memory_counterexample :
    zeroMachine.mem (entryAddr 0xC0200000 (PGD_INDEX 0x401000)) &&& PAGE_MASK = 0 ∧
    InMemory.get_mapping (InMemory.map 0x300000 zeroMachine 0xC0200000 0x401000 0 0)
      0xC0200000 0x401000 1 = { ret := 0, pa := 1 } ∧
    InMemory.get_mapping (InMemory.map 0x300000 zeroMachine 0xC0200000 0x401000 0x100800 3)
      0xC0200000 0x401000 1 = { ret := 1, pa := 0x100000 } ∧
    (0x100000 : Nat) ≠ 0x100800 := by
  decide

end SimpleKernel
